import Mathlib

/-!
# Verification of absctl configuration models

Shallow embedding of the configuration-model layer of the `absctl` CLI
(packages `internal/models` and `internal/config`) together with proofs of
the specified properties.

Conventions of the embedding:
* Go strings are Lean `String`s; Go `int`/`int64` are Lean `Int`;
  Go `uint64` is Lean `Nat`.
* A Go function returning `error` is embedded as a function returning
  `Option E` for an inductive error type `E` (`none` = nil error), or
  `Except E α` when it also returns a value.
* External collaborators (the backup engine library, the Aerospike client,
  the system clock and timezone database) are passed in as explicit
  parameters, never hard-coded.
-/

namespace Absctl

/-- Splits a character list at every comma, keeping empty tokens, as Go's
`strings.Split(s, ",")` does on a non-empty string. -/
def splitCommaAux : List Char → List Char → List String
  | [], acc => [String.mk acc.reverse]
  | c :: rest, acc =>
    if c = ',' then String.mk acc.reverse :: splitCommaAux rest []
    else splitCommaAux rest (c :: acc)

/-- Go `strings.Split(s, ",")` guarded by the empty-string check, as done by
`SplitByComma` (internal/models/backup.go) and its package-private twin
`splitByComma`: the empty string yields the empty list, otherwise the string
is split on every comma, keeping empty tokens. -/
def splitByComma (s : String) : List String :=
  if s = "" then [] else splitCommaAux s.data []

/-- Shared backup/restore options (`models.Common`).  The struct itself is
declared outside the provided sources (only its callers and tests are
present); the fields listed here are the ones those callers use. -/
structure Common where
  Namespace : String := ""
  Directory : String := ""
  SetList : String := ""
  BinList : String := ""
  Parallel : Int := 0
  RecordsPerSecond : Int := 0
  Bandwidth : Int := 0
  TotalTimeout : Int := 0
  SocketTimeout : Int := 0
  InfoTimeout : Int := 0
  NoRecords : Bool := false
  NoIndexes : Bool := false
  NoUDFs : Bool := false
  deriving Repr, DecidableEq

/-- Error produced by `Common.Validate`. -/
inductive CommonErr where
  | namespaceRequired
  deriving Repr, DecidableEq

/-- Modelled from the spec: `Common.Validate` is code of this repository that
is not under src/ (only its callers and its tests are present).  Spec §4.1
item 10 describes it as "delegates to Common.Validate (namespace required,
etc.)" and the repository's tests expect exactly the error message
"namespace is required" when the namespace is empty while a fully zero
`Common` with a namespace passes.  Modelled as: the namespace must be
non-empty. -/
def Common.validate (c : Common) : Option CommonErr :=
  if c.Namespace = "" then some .namespaceRequired else none

/-- `models.Backup` (internal/models/backup.go), the scan-backup option
group.  `Common` is embedded in Go; here it is the named field `common`. -/
structure Backup where
  common : Common := {}
  MaxRetries : Int := 0
  OutputFile : String := ""
  RemoveFiles : Bool := false
  ModifiedBefore : String := ""
  ModifiedAfter : String := ""
  FileLimit : Nat := 0
  AfterDigest : String := ""
  MaxRecords : Int := 0
  NoBins : Bool := false
  SleepBetweenRetries : Int := 0
  FilterExpression : String := ""
  RemoveArtifacts : Bool := false
  Compact : Bool := false
  NodeList : String := ""
  NoTTLOnly : Bool := false
  PreferRacks : String := ""
  PartitionList : String := ""
  Estimate : Bool := false
  EstimateSamples : Int := 0
  StateFileDst : String := ""
  Continue : String := ""
  ScanPageSize : Int := 0
  OutputFilePrefix : String := ""
  RackList : String := ""
  deriving Repr, DecidableEq

/-- `Backup.ShouldClearTarget` (internal/models/backup.go):
`(b.RemoveFiles || b.RemoveArtifacts) && b.Continue == ""`. -/
def Backup.ShouldClearTarget (b : Backup) : Bool :=
  (b.RemoveFiles || b.RemoveArtifacts) && b.Continue == ""

/-- `models.Restore` (internal/models).  `Common` is embedded in Go; here it
is the named field `common`.  The float64 field `RetryMultiplier` is omitted
(floating point is outside the embedding; no modelled behaviour reads it). -/
structure Restore where
  common : Common := {}
  InputFile : String := ""
  DirectoryList : String := ""
  ParentDirectory : String := ""
  DisableBatchWrites : Bool := false
  BatchSize : Int := 0
  MaxAsyncBatches : Int := 0
  WarmUp : Int := 0
  ExtraTTL : Int := 0
  IgnoreRecordError : Bool := false
  Uniq : Bool := false
  Replace : Bool := false
  NoGeneration : Bool := false
  RetryBaseInterval : Int := 0
  RetryMaxAttempts : Nat := 0
  Mode : String := ""
  ValidateOnly : Bool := false
  ApplyMetadataLast : Bool := false
  deriving Repr, DecidableEq

/-- `backup.RestoreNamespaceConfig`: the source/destination namespace pair
handed to the engine (pointer fields in Go; both always set by
`NamespaceConfig`, so plain strings here). -/
structure RestoreNamespaceConfig where
  Source : String
  Destination : String
  deriving Repr, DecidableEq

/-- `Restore.NamespaceConfig` (internal/models): splits `r.Namespace` on
commas; one token duplicates into source and destination, two tokens map
in order, anything else yields nil. -/
def Restore.NamespaceConfig (r : Restore) : Option RestoreNamespaceConfig :=
  match splitByComma r.common.Namespace with
  | [ns] => some ⟨ns, ns⟩
  | [nsSource, nsDest] => some ⟨nsSource, nsDest⟩
  | _ => none

/-! ## C10: ShouldClearTarget -/

/-- C10: for every `Backup` value, `ShouldClearTarget()` returns true if and
only if at least one of `RemoveFiles` or `RemoveArtifacts` is set and
`Continue` is the empty string; in particular a resume invocation (non-empty
`Continue`) never requests clearing of the target directory. -/
theorem shouldClearTarget_iff (b : Backup) :
    b.ShouldClearTarget = true ↔
      ((b.RemoveFiles = true ∨ b.RemoveArtifacts = true) ∧ b.Continue = "") := by
  simp [Backup.ShouldClearTarget]

/-! ## C8: NamespaceConfig -/

/-- C8: splitting the restore namespace string on commas, exactly one token
makes `NamespaceConfig` use it as both source and destination; exactly two
tokens map to source and destination in order; three or more tokens give
`none`. -/
theorem namespaceConfig_spec (r : Restore) :
    (∀ t, splitByComma r.common.Namespace = [t] →
        r.NamespaceConfig = some ⟨t, t⟩) ∧
    (∀ a b, splitByComma r.common.Namespace = [a, b] →
        r.NamespaceConfig = some ⟨a, b⟩) ∧
    (3 ≤ (splitByComma r.common.Namespace).length →
        r.NamespaceConfig = none) := by
  refine ⟨?_, ?_, ?_⟩
  · intro t h
    simp [Restore.NamespaceConfig, h]
  · intro a b h
    simp [Restore.NamespaceConfig, h]
  · intro h
    unfold Restore.NamespaceConfig
    match hs : splitByComma r.common.Namespace with
    | [] => rfl
    | [t] => rw [hs] at h; simp at h
    | [a, b] => rw [hs] at h; simp at h
    | a :: b :: c :: rest => rfl

/-- Witness for C8 at a concrete restore value. -/
theorem namespaceConfig_spec_witness :
    ({ common := { Namespace := "src-ns,dst-ns" } } : Restore).NamespaceConfig
      = some ⟨"src-ns", "dst-ns"⟩ :=
  (namespaceConfig_spec _).2.1 "src-ns" "dst-ns" (by decide)

/-! ## File-prefix validation (`validateFilePrefix`, internal/models/backup.go) -/

/-- The forbidden characters `\/:*?"<>|` of `validateFilePrefix`. -/
def invalidFileChars : List Char := ['\\', '/', ':', '*', '?', '\"', '<', '>', '|']

/-- Errors of `validateFilePrefix`. -/
inductive FilePrefixErr where
  | invalidChar (c : Char) (i : Nat)
  | controlChar (c : Char) (i : Nat)
  | delChar (i : Nat)
  | edgeWhitespace
  deriving Repr, DecidableEq

/-- The per-character loop of `validateFilePrefix`: forbidden punctuation,
then ASCII control (0-31), then DEL (127), reporting the first offender. -/
def badCharScan : List Char → Nat → Option FilePrefixErr
  | [], _ => none
  | c :: rest, i =>
    if invalidFileChars.contains c then some (.invalidChar c i)
    else if c.toNat < 32 then some (.controlChar c i)
    else if c.toNat = 127 then some (.delChar i)
    else badCharScan rest (i + 1)

/-- Go `unicode.IsSpace`: the Latin-1 space characters plus the Unicode
White_Space code points, as used by `strings.TrimSpace`. -/
def goIsSpace (c : Char) : Bool :=
  c == ' ' || c == '\t' || c == '\n' || c.toNat == 11 || c.toNat == 12 ||
  c == '\r' || c.toNat == 0x85 || c.toNat == 0xA0 || c.toNat == 0x1680 ||
  (0x2000 ≤ c.toNat && c.toNat ≤ 0x200A) || c.toNat == 0x2028 ||
  c.toNat == 0x2029 || c.toNat == 0x202F || c.toNat == 0x205F ||
  c.toNat == 0x3000

/-- Go `strings.TrimSpace`: drop leading and trailing whitespace. -/
def goTrimSpace (l : List Char) : List Char :=
  ((l.dropWhile goIsSpace).reverse.dropWhile goIsSpace).reverse

/-- `validateFilePrefix` (internal/models/backup.go): the empty prefix is
accepted; otherwise each character is checked against the forbidden set,
control range and DEL, and finally the prefix must equal its own
whitespace-trimmed form. -/
def validateFilePrefix (p : String) : Option FilePrefixErr :=
  if p = "" then none
  else
    match badCharScan p.data 0 with
    | some e => some e
    | none => if goTrimSpace p.data ≠ p.data then some .edgeWhitespace else none

theorem badCharScan_none_iff (l : List Char) : ∀ i,
    badCharScan l i = none ↔
      ∀ c ∈ l, c ∉ invalidFileChars ∧ 32 ≤ c.toNat ∧ c.toNat ≠ 127 := by
  induction l with
  | nil => intro i; simp [badCharScan]
  | cons c rest ih =>
    intro i
    simp only [badCharScan]
    split_ifs with h1 h2 h3
    · refine iff_of_false (by simp) ?_
      intro hall
      exact (hall c (List.mem_cons_self _ _)).1 (by simpa using h1)
    · refine iff_of_false (by simp) ?_
      intro hall
      have := (hall c (List.mem_cons_self _ _)).2.1
      omega
    · refine iff_of_false (by simp) ?_
      intro hall
      exact (hall c (List.mem_cons_self _ _)).2.2 h3
    · rw [ih (i + 1)]
      constructor
      · intro hall c' hc'
        rcases List.mem_cons.mp hc' with rfl | hmem
        · refine ⟨?_, by omega, h3⟩
          intro hc
          exact h1 (by simpa using hc)
        · exact hall c' hmem
      · intro hall c' hc'
        exact hall c' (List.mem_cons_of_mem _ hc')

theorem dropWhile_eq_self_of_length (f : Char → Bool) (x : List Char)
    (h : x.length ≤ (x.dropWhile f).length) : x.dropWhile f = x := by
  cases x with
  | nil => simp
  | cons c t =>
    by_cases hf : f c
    · exfalso
      have hle := (t.dropWhile_sublist f).length_le
      simp [List.dropWhile_cons, hf] at h
      omega
    · simp [List.dropWhile_cons, hf]

theorem dropWhile_self_iff (f : Char → Bool) (l : List Char) :
    l.dropWhile f = l ↔ ∀ c, l.head? = some c → f c = false := by
  cases l with
  | nil => simp
  | cons c t =>
    simp only [List.dropWhile_cons, List.head?_cons]
    by_cases h : f c
    · simp only [h, if_true]
      refine iff_of_false ?_ ?_
      · intro he
        have hlen := congrArg List.length he
        have hle := (t.dropWhile_sublist f).length_le
        simp at hlen
        omega
      · intro hall
        have := hall c rfl
        simp [h] at this
    · simp only [h, if_false]
      constructor
      · intro _ c' hc'
        cases hc'
        simpa using h
      · intro _
        rfl

theorem trimSpace_eq_self_iff (l : List Char) :
    goTrimSpace l = l ↔
      ((∀ c, l.head? = some c → goIsSpace c = false) ∧
       (∀ c, l.getLast? = some c → goIsSpace c = false)) := by
  constructor
  · intro h
    have e1 := congrArg List.length h
    simp only [goTrimSpace, List.length_reverse] at e1
    have le1 := (l.dropWhile_sublist goIsSpace).length_le
    have le2 := ((l.dropWhile goIsSpace).reverse.dropWhile_sublist goIsSpace).length_le
    simp only [List.length_reverse] at le2
    have h1 : l.dropWhile goIsSpace = l :=
      dropWhile_eq_self_of_length _ _ (by omega)
    have h2 : l.reverse.dropWhile goIsSpace = l.reverse := by
      have : goTrimSpace l = (l.reverse.dropWhile goIsSpace).reverse := by
        rw [goTrimSpace, h1]
      rw [this] at h
      have := congrArg List.reverse h
      simpa using this
    refine ⟨(dropWhile_self_iff _ _).mp h1, ?_⟩
    intro c hc
    refine (dropWhile_self_iff _ _).mp h2 c ?_
    rwa [List.head?_reverse]
  · rintro ⟨hh, hl⟩
    have h1 : l.dropWhile goIsSpace = l := (dropWhile_self_iff _ _).mpr hh
    have h2 : l.reverse.dropWhile goIsSpace = l.reverse := by
      refine (dropWhile_self_iff _ _).mpr ?_
      intro c hc
      exact hl c (by rwa [List.head?_reverse] at hc)
    rw [goTrimSpace, h1, h2, List.reverse_reverse]

/-- C9: `validateFilePrefix` accepts a prefix exactly when no character is in
the forbidden set `\/:*?"<>|`, no character is an ASCII control (0-31) or
DEL (127), and the first and last characters are not whitespace; the empty
string is accepted vacuously. -/
theorem validateFilePrefix_none_iff (p : String) :
    validateFilePrefix p = none ↔
      ((∀ c ∈ p.data, c ∉ invalidFileChars ∧ 32 ≤ c.toNat ∧ c.toNat ≠ 127) ∧
       (∀ c, p.data.head? = some c → goIsSpace c = false) ∧
       (∀ c, p.data.getLast? = some c → goIsSpace c = false)) := by
  unfold validateFilePrefix
  by_cases hp : p = ""
  · subst hp
    simp [show ("" : String).data = [] from rfl]
  · simp only [hp, if_false]
    cases hscan : badCharScan p.data 0 with
    | some e =>
      refine iff_of_false (by simp) ?_
      rintro ⟨hgood, -, -⟩
      rw [(badCharScan_none_iff p.data 0).mpr hgood] at hscan
      cases hscan
    | none =>
      have hgood := (badCharScan_none_iff p.data 0).mp hscan
      by_cases ht : goTrimSpace p.data = p.data
      · simp only [ht, ne_eq, not_true_eq_false, if_false]
        have := (trimSpace_eq_self_iff p.data).mp ht
        exact iff_of_true trivial ⟨hgood, this.1, this.2⟩
      · simp only [ne_eq, ht, not_false_eq_true, if_true]
        refine iff_of_false (by simp) ?_
        rintro ⟨-, hh, hl⟩
        exact ht ((trimSpace_eq_self_iff p.data).mpr ⟨hh, hl⟩)

/-! ## Backup.Validate (internal/models/backup.go) -/

/-- Errors of `Backup.Validate`, one constructor per distinct `fmt.Errorf`
site (data relevant to the message is carried as arguments). -/
inductive BackupErr where
  | mustSpecifyTarget
  | onlyOneOutput
  | outputFilePrefixInvalid (e : FilePrefixErr)
  | prefixWithOutputFile
  | multipleFilters (names : List String)
  | continueWithStateFileDst
  | continueWithRemoveFiles
  | maxRecordsNeedsParallelOne
  | estimateWithFilter
  | estimateWithOutput
  | estimateSamplesNegative
  | commonErr (e : CommonErr)
  deriving Repr, DecidableEq

/-- `Backup.validateSingleFilter`: counts which of after-digest,
partition-list, node-list and rack-list are set (in that order) and fails
when more than one is, naming the offenders. -/
def Backup.validateSingleFilter (b : Backup) : Option BackupErr :=
  let setFilters :=
    (if b.AfterDigest ≠ "" then ["after-digest"] else []) ++
    (if b.PartitionList ≠ "" then ["partition-list"] else []) ++
    (if b.NodeList ≠ "" then ["node-list"] else []) ++
    (if b.RackList ≠ "" then ["rack-list"] else [])
  if 1 < setFilters.length then some (.multipleFilters setFilters) else none

/-- `Backup.Validate` (internal/models/backup.go lines 80-141), transcribed
check for check in source order.  The nil-receiver case is not modelled (a
Lean `Backup` is always a value). -/
def Backup.validate (b : Backup) : Option BackupErr :=
  if b.Estimate = false ∧ b.OutputFile = "" ∧ b.common.Directory = "" then
    some .mustSpecifyTarget
  else if b.common.Directory ≠ "" ∧ b.OutputFile ≠ "" then
    some .onlyOneOutput
  else
    match validateFilePrefix b.OutputFilePrefix with
    | some e => some (.outputFilePrefixInvalid e)
    | none =>
      if b.OutputFile ≠ "" ∧ b.OutputFilePrefix ≠ "" then
        some .prefixWithOutputFile
      else
        match b.validateSingleFilter with
        | some e => some e
        | none =>
          if b.Continue ≠ "" ∧ b.StateFileDst ≠ "" then
            some .continueWithStateFileDst
          else if b.Continue ≠ "" ∧ b.RemoveFiles = true then
            some .continueWithRemoveFiles
          else if b.MaxRecords ≠ 0 ∧ b.common.Parallel ≠ 1 then
            some .maxRecordsNeedsParallelOne
          else if b.Estimate = true then
            if b.PartitionList ≠ "" ∨ b.NodeList ≠ "" ∨ b.AfterDigest ≠ "" ∨
                b.FilterExpression ≠ "" ∨ b.ModifiedAfter ≠ "" ∨
                b.ModifiedBefore ≠ "" ∨ b.NoTTLOnly = true then
              some .estimateWithFilter
            else if b.OutputFile ≠ "" ∨ b.common.Directory ≠ "" then
              some .estimateWithOutput
            else if b.EstimateSamples < 0 then
              some .estimateSamplesNegative
            else (b.common.validate).map .commonErr
          else (b.common.validate).map .commonErr

/-! ### C2: the ten checks of Backup.Validate as an ordered list -/

/-- Check 1: output-target presence. -/
def backupCheckTarget (b : Backup) : Option BackupErr :=
  if b.Estimate = false ∧ b.OutputFile = "" ∧ b.common.Directory = "" then
    some .mustSpecifyTarget
  else none

/-- Check 2: output-file vs directory mutual exclusion. -/
def backupCheckOneOutput (b : Backup) : Option BackupErr :=
  if b.common.Directory ≠ "" ∧ b.OutputFile ≠ "" then some .onlyOneOutput
  else none

/-- Check 3: output-file-prefix character safety. -/
def backupCheckPrefixSafe (b : Backup) : Option BackupErr :=
  (validateFilePrefix b.OutputFilePrefix).map .outputFilePrefixInvalid

/-- Check 4: output-file-prefix vs output-file mutual exclusion. -/
def backupCheckPrefixVsFile (b : Backup) : Option BackupErr :=
  if b.OutputFile ≠ "" ∧ b.OutputFilePrefix ≠ "" then some .prefixWithOutputFile
  else none

/-- Check 6: continue vs state-file-dst mutual exclusion. -/
def backupCheckContinueState (b : Backup) : Option BackupErr :=
  if b.Continue ≠ "" ∧ b.StateFileDst ≠ "" then some .continueWithStateFileDst
  else none

/-- Check 7: continue vs remove-files mutual exclusion. -/
def backupCheckContinueRemove (b : Backup) : Option BackupErr :=
  if b.Continue ≠ "" ∧ b.RemoveFiles = true then some .continueWithRemoveFiles
  else none

/-- Check 8: max-records requires parallel == 1. -/
def backupCheckMaxRecords (b : Backup) : Option BackupErr :=
  if b.MaxRecords ≠ 0 ∧ b.common.Parallel ≠ 1 then
    some .maxRecordsNeedsParallelOne
  else none

/-- Check 9: the estimate-mode block (filters, then output target, then
sample count). -/
def backupCheckEstimate (b : Backup) : Option BackupErr :=
  if b.Estimate = true then
    if b.PartitionList ≠ "" ∨ b.NodeList ≠ "" ∨ b.AfterDigest ≠ "" ∨
        b.FilterExpression ≠ "" ∨ b.ModifiedAfter ≠ "" ∨
        b.ModifiedBefore ≠ "" ∨ b.NoTTLOnly = true then
      some .estimateWithFilter
    else if b.OutputFile ≠ "" ∨ b.common.Directory ≠ "" then
      some .estimateWithOutput
    else if b.EstimateSamples < 0 then some .estimateSamplesNegative
    else none
  else none

/-- Check 10: delegation to `Common.Validate`. -/
def backupCheckCommon (b : Backup) : Option BackupErr :=
  (b.common.validate).map .commonErr

/-- The first `some` in a list of check results (the checks earlier in the
list take priority). -/
def firstErr : List (Option BackupErr) → Option BackupErr
  | [] => none
  | some e :: _ => some e
  | none :: rest => firstErr rest

theorem firstErr_single (o : Option BackupErr) : firstErr [o] = o := by
  cases o <;> rfl

set_option maxHeartbeats 4000000 in
/-- C2: `Backup.Validate` returns exactly the error of the earliest violated
check in the fixed order (1) output-target presence, (2) output-file vs
directory, (3) prefix character safety, (4) prefix vs output-file, (5)
single-filter exclusivity, (6) continue vs state-file-dst, (7) continue vs
remove-files, (8) max-records/parallel, (9) the estimate block, (10)
`Common.Validate` — so when several constraints are violated, the single
reported error is the earliest check's. -/
theorem backupValidate_eq_firstCheck (b : Backup) :
    b.validate = firstErr
      [backupCheckTarget b, backupCheckOneOutput b, backupCheckPrefixSafe b,
       backupCheckPrefixVsFile b, b.validateSingleFilter,
       backupCheckContinueState b, backupCheckContinueRemove b,
       backupCheckMaxRecords b, backupCheckEstimate b, backupCheckCommon b] := by
  unfold Backup.validate backupCheckTarget backupCheckOneOutput
    backupCheckPrefixSafe backupCheckPrefixVsFile backupCheckContinueState
    backupCheckContinueRemove backupCheckMaxRecords backupCheckEstimate
    backupCheckCommon
  cases hpfx : validateFilePrefix b.OutputFilePrefix <;>
    cases hsf : b.validateSingleFilter <;>
      simp only [hpfx, hsf, Option.map_some', Option.map_none'] <;>
        split_ifs <;> simp only [firstErr, firstErr_single]

/-! ### C1: estimate with a filter -/

/-- C1 (amended): with estimate set and all earlier-checked optional fields
clear, any one of partition-list, node-list, after-digest,
filter-expression, modified-after, modified-before or no-ttl-only set makes
`Backup.Validate` return the estimate-with-filter error.  (The original
claim also listed rack-list; the code's estimate block does not test
rack-list, see `backupValidate_rackList_counterexample`.) -/
theorem estimate_with_filter_err (b : Backup)
    (hE : b.Estimate = true)
    (hOF : b.OutputFile = "") (hDir : b.common.Directory = "")
    (hPfx : b.OutputFilePrefix = "")
    (hSF : b.validateSingleFilter = none)
    (hC : b.Continue = "")
    (hMR : b.MaxRecords = 0 ∨ b.common.Parallel = 1)
    (hone : b.PartitionList ≠ "" ∨ b.NodeList ≠ "" ∨ b.AfterDigest ≠ "" ∨
        b.FilterExpression ≠ "" ∨ b.ModifiedAfter ≠ "" ∨
        b.ModifiedBefore ≠ "" ∨ b.NoTTLOnly = true) :
    b.validate = some .estimateWithFilter := by
  have hMR' : ¬(b.MaxRecords ≠ 0 ∧ b.common.Parallel ≠ 1) := by
    rcases hMR with h | h <;> simp [h]
  unfold Backup.validate
  rw [hE, hOF, hDir, hPfx, hC]
  simp only [show validateFilePrefix "" = none from by decide, hSF]
  rw [if_neg (by simp), if_neg (by simp), if_neg (by simp),
    if_neg (by simp), if_neg (by simp), if_neg hMR', if_pos trivial, if_pos hone]

/-- Witness for C1's amended theorem: estimate with only a partition list
set is rejected with the estimate-with-filter error. -/
theorem estimate_with_filter_err_witness :
    ({ Estimate := true, PartitionList := "0-1024",
       common := { Namespace := "test" } } : Backup).validate
      = some .estimateWithFilter :=
  estimate_with_filter_err _ rfl rfl rfl rfl (by decide) rfl
    (Or.inl rfl) (by left; decide)

/-- C1 counterexample: a `Backup` with `Estimate = true` and exactly one
filter-type field set — namely rack-list — for which `Backup.Validate`
does *not* return the estimate-with-filter error (it returns nil): the
estimate block never inspects rack-list. -/
theorem backupValidate_rackList_counterexample :
    (({ Estimate := true, RackList := "1",
        common := { Namespace := "test" } } : Backup).validate = none) ∧
    (({ Estimate := true, RackList := "1",
        common := { Namespace := "test" } } : Backup).validate
      ≠ some .estimateWithFilter) := by
  constructor <;> decide

/-! ## Restore.Validate (internal/models) -/

/-- Errors of `Restore.Validate`. -/
inductive RestoreErr where
  | invalidMode (m : String)
  | inputRequired
  | onlyOneDirInput
  | onlyOneOfThree
  | dirListRequired
  | warmUpNegative
  | commonErr (e : CommonErr)
  deriving Repr, DecidableEq

/-- `Restore.Validate` (internal/models), transcribed check for check in
source order.  `Common.Validate` runs only when `ValidateOnly` is false. -/
def Restore.validate (r : Restore) : Option RestoreErr :=
  if r.Mode ≠ "auto" ∧ r.Mode ≠ "asb" ∧ r.Mode ≠ "asbx" then
    some (.invalidMode r.Mode)
  else if r.InputFile = "" ∧ r.common.Directory = "" ∧ r.DirectoryList = "" then
    some .inputRequired
  else if r.common.Directory ≠ "" ∧ r.InputFile ≠ "" then
    some .onlyOneDirInput
  else if r.DirectoryList ≠ "" ∧ (r.common.Directory ≠ "" ∨ r.InputFile ≠ "") then
    some .onlyOneOfThree
  else if r.ParentDirectory ≠ "" ∧ r.DirectoryList = "" then
    some .dirListRequired
  else if r.WarmUp < 0 then
    some .warmUpNegative
  else if r.ValidateOnly = false then
    (r.common.validate).map .commonErr
  else none

/-- C4 (amended): `Restore.Validate` requires at least one of input-file,
directory or directory-list *regardless of validate-only*; with a
recognized mode and all three input sources empty it always returns the
input-required error.  Validate-only skips only the `Common.Validate`
delegation at the end of the chain. -/
theorem restoreValidate_inputRequired (r : Restore)
    (hmode : r.Mode = "auto" ∨ r.Mode = "asb" ∨ r.Mode = "asbx")
    (hIF : r.InputFile = "") (hDir : r.common.Directory = "")
    (hDL : r.DirectoryList = "") :
    r.validate = some .inputRequired := by
  unfold Restore.validate
  rw [hIF, hDir, hDL]
  have hm : ¬(r.Mode ≠ "auto" ∧ r.Mode ≠ "asb" ∧ r.Mode ≠ "asbx") := by
    rcases hmode with h | h | h <;> simp [h]
  rw [if_neg hm]
  simp

/-- Witness for C4's amended theorem, at the very configuration the original
claim asserted would pass: validate-only true, recognized mode, no input
source — `Restore.Validate` still demands an input source. -/
theorem restoreValidate_inputRequired_witness :
    ({ Mode := "auto", ValidateOnly := true,
       common := { Namespace := "test" } } : Restore).validate
      = some .inputRequired :=
  restoreValidate_inputRequired _ (Or.inl rfl) rfl rfl rfl

/-- C4 counterexample: a `Restore` with validate-only true, recognized mode
`auto`, a namespace, and none of the three input sources set is *not*
accepted by `Restore.Validate` — it fails with the input-required error,
contradicting the claim that validation succeeds. -/
theorem restoreValidate_validateOnly_counterexample :
    ({ Mode := "auto", ValidateOnly := true,
       common := { Namespace := "test" } } : Restore).validate ≠ none := by
  decide

/-! ## Partition filters (`validatePartitionFilters`, internal/models/backup.go) -/

/-- `aerospike.PartitionFilter` as far as `validatePartitionFilters` inspects
it: a begin partition and a count. -/
structure PartitionFilter where
  Begin : Int
  Count : Int
  deriving Repr, DecidableEq

/-- Errors of `validatePartitionFilters`. -/
inductive PartErr where
  | dupBegin (b : Int)
  | invalidCount (c : Int)
  | overlap (p q : Int × Int)
  deriving Repr, DecidableEq

/-- The first loop of `validatePartitionFilters`: walks the filters in order
keeping the set of `count == 1` begins already seen (Go's `beginMap`) and the
accumulated `count > 1` intervals; rejects a duplicate begin or a count below
one at the first offender. -/
def collectFilters :
    List PartitionFilter → List Int → List (Int × Int) →
      Except PartErr (List (Int × Int))
  | [], _, ivs => .ok ivs
  | f :: rest, seen, ivs =>
    if f.Count = 1 then
      if f.Begin ∈ seen then .error (.dupBegin f.Begin)
      else collectFilters rest (f.Begin :: seen) ivs
    else if 1 < f.Count then
      collectFilters rest seen (ivs ++ [(f.Begin, f.Begin + f.Count - 1)])
    else .error (.invalidCount f.Count)

/-- The second loop of `validatePartitionFilters`: on the sorted interval
list, reject as soon as an interval begins no later than its predecessor
ends. -/
def scanAdjacent : List (Int × Int) → Option PartErr
  | p :: q :: rest =>
    if q.1 ≤ p.2 then some (.overlap p q) else scanAdjacent (q :: rest)
  | _ => none

/-- Sorting order used on intervals: by begin, ascending (the `less` function
of Go's `sort.Slice` call). -/
def ivLE (p q : Int × Int) : Prop := p.1 ≤ q.1

instance : DecidableRel ivLE := fun p q => inferInstanceAs (Decidable (p.1 ≤ q.1))

instance : IsTotal (Int × Int) ivLE := ⟨fun p q => le_total p.1 q.1⟩

instance : IsTrans (Int × Int) ivLE := ⟨fun _ _ _ h1 h2 => le_trans h1 h2⟩

/-- `validatePartitionFilters` (internal/models/backup.go lines 364-406).
Go sorts with the unstable `sort.Slice`; the embedding uses insertion sort,
which also produces a by-begin-sorted permutation of the intervals (the main
theorem shows the verdict depends only on the multiset of intervals, so the
choice among sorted permutations is immaterial). -/
def validatePartitionFilters (fs : List PartitionFilter) : Option PartErr :=
  if fs.length < 1 then none
  else
    match collectFilters fs [] [] with
    | .error e => some e
    | .ok ivs => scanAdjacent (List.insertionSort ivLE ivs)

/-- The begins of the `count == 1` filters, in list order. -/
def begins1 (fs : List PartitionFilter) : List Int :=
  (fs.filter (fun f => decide (f.Count = 1))).map (·.Begin)

/-- The closed intervals `[begin, begin+count-1]` of the `count > 1`
filters, in list order. -/
def intervalsOf (fs : List PartitionFilter) : List (Int × Int) :=
  (fs.filter (fun f => decide (1 < f.Count))).map
    (fun f => (f.Begin, f.Begin + f.Count - 1))

/-- Two closed intervals neither overlap nor touch: one ends strictly
before the other begins. -/
def ivDisjoint (p q : Int × Int) : Prop := p.2 < q.1 ∨ q.2 < p.1

instance : DecidableRel ivDisjoint :=
  fun p q => inferInstanceAs (Decidable (p.2 < q.1 ∨ q.2 < p.1))

theorem collectFilters_ok_iff (fs : List PartitionFilter) :
    ∀ (seen : List Int) (ivs out : List (Int × Int)),
      collectFilters fs seen ivs = .ok out ↔
        ((∀ f ∈ fs, 1 ≤ f.Count) ∧ (begins1 fs).Nodup ∧
         (∀ x ∈ begins1 fs, x ∉ seen) ∧ out = ivs ++ intervalsOf fs) := by
  induction fs with
  | nil =>
    intro seen ivs out
    simp [collectFilters, begins1, intervalsOf, eq_comm]
  | cons f rest ih =>
    intro seen ivs out
    by_cases h1 : f.Count = 1
    · have hb : begins1 (f :: rest) = f.Begin :: begins1 rest := by
        simp [begins1, h1]
      have hiv : intervalsOf (f :: rest) = intervalsOf rest := by
        simp [intervalsOf, List.filter_cons, show ¬(1 < f.Count) by omega]
      by_cases hmem : f.Begin ∈ seen
      · simp only [collectFilters, if_pos h1, if_pos hmem]
        refine iff_of_false (by simp) ?_
        rintro ⟨-, -, hnot, -⟩
        exact hnot f.Begin (by rw [hb]; exact List.mem_cons_self _ _) hmem
      · simp only [collectFilters, if_pos h1, if_neg hmem]
        rw [ih, hb, hiv]
        constructor
        · rintro ⟨hcnt, hnd, hnin, hout⟩
          refine ⟨?_, ?_, ?_, hout⟩
          · intro g hg
            rcases List.mem_cons.mp hg with rfl | hg'
            · omega
            · exact hcnt g hg'
          · rw [List.nodup_cons]
            refine ⟨?_, hnd⟩
            intro hmem'
            exact hnin f.Begin hmem' (List.mem_cons_self _ _)
          · intro x hx
            rcases List.mem_cons.mp hx with rfl | hx'
            · exact hmem
            · intro hxs
              exact hnin x hx' (List.mem_cons_of_mem _ hxs)
        · rintro ⟨hcnt, hnd, hnin, hout⟩
          rw [List.nodup_cons] at hnd
          refine ⟨fun g hg => hcnt g (List.mem_cons_of_mem _ hg), hnd.2, ?_, hout⟩
          intro x hx hxseen
          rcases List.mem_cons.mp hxseen with rfl | hxs
          · exact hnd.1 hx
          · exact hnin x (List.mem_cons_of_mem _ hx) hxs
    · by_cases h2 : 1 < f.Count
      · have hb : begins1 (f :: rest) = begins1 rest := by
          simp [begins1, List.filter_cons, h1]
        have hiv : intervalsOf (f :: rest)
            = (f.Begin, f.Begin + f.Count - 1) :: intervalsOf rest := by
          simp [intervalsOf, List.filter_cons, h2]
        simp only [collectFilters, if_neg h1, if_pos h2]
        rw [ih, hb, hiv]
        constructor
        · rintro ⟨hcnt, hnd, hnin, hout⟩
          refine ⟨?_, hnd, hnin, ?_⟩
          · intro g hg
            rcases List.mem_cons.mp hg with rfl | hg'
            · omega
            · exact hcnt g hg'
          · rw [hout]; simp
        · rintro ⟨hcnt, hnd, hnin, hout⟩
          refine ⟨fun g hg => hcnt g (List.mem_cons_of_mem _ hg), hnd, hnin, ?_⟩
          rw [hout]; simp
      · simp only [collectFilters, if_neg h1, if_neg h2]
        refine iff_of_false (by simp) ?_
        rintro ⟨hcnt, -, -, -⟩
        have := hcnt f (List.mem_cons_self _ _)
        omega

theorem scanAdjacent_none_iff (l : List (Int × Int)) :
    scanAdjacent l = none ↔ l.Chain' (fun p q => p.2 < q.1) := by
  induction l with
  | nil => simp [scanAdjacent]
  | cons p rest ih =>
    cases rest with
    | nil => simp [scanAdjacent]
    | cons q rest' =>
      by_cases h : q.1 ≤ p.2
      · simp only [scanAdjacent, if_pos h]
        refine iff_of_false (by simp) ?_
        rw [List.chain'_cons]
        rintro ⟨hlt, -⟩
        omega
      · simp only [scanAdjacent, if_neg h]
        rw [ih, List.chain'_cons]
        have : p.2 < q.1 := by omega
        simp [this]

theorem chain_lt_iff_pairwise_disjoint :
    ∀ (l : List (Int × Int)), l.Sorted ivLE → (∀ p ∈ l, p.1 ≤ p.2) →
      (l.Chain' (fun p q => p.2 < q.1) ↔ l.Pairwise ivDisjoint) := by
  intro l
  induction l with
  | nil => simp
  | cons a t ih =>
    intro hs hp
    rw [List.chain'_cons', List.pairwise_cons,
      ih hs.of_cons (fun p hp' => hp p (List.mem_cons_of_mem _ hp'))]
    constructor
    · rintro ⟨hhead, hpw⟩
      refine ⟨?_, hpw⟩
      intro x hx
      left
      cases t with
      | nil => cases hx
      | cons b t' =>
        have hab : a.2 < b.1 := hhead b rfl
        rcases List.mem_cons.mp hx with rfl | hx'
        · exact hab
        · have hbx : ivLE b x := (List.pairwise_cons.mp hs.of_cons).1 x hx'
          exact lt_of_lt_of_le hab hbx
    · rintro ⟨hall, hpw⟩
      refine ⟨?_, hpw⟩
      intro b hb
      cases t with
      | nil => simp at hb
      | cons b' t' =>
        simp only [List.head?_cons, Option.mem_def, Option.some.injEq] at hb
        subst hb
        rcases hall b' (List.mem_cons_self _ _) with h | h
        · exact h
        · exfalso
          have hab : ivLE a b' := (List.pairwise_cons.mp hs).1 b' (List.mem_cons_self _ _)
          have hbb : b'.1 ≤ b'.2 := hp b' (List.mem_cons_of_mem _ (List.mem_cons_self _ _))
          simp only [ivLE] at hab
          omega

/-- C3: `validatePartitionFilters` accepts a filter list exactly when every
count is at least 1, the begins of the `count == 1` filters are pairwise
distinct, and the closed intervals `[begin, begin+count-1]` of the
`count > 1` filters pairwise neither overlap nor touch (touch = share an
endpoint, the `current.begin <= previous.end` test after sorting); and the
verdict is invariant under reordering of the input list. -/
theorem validatePartitionFilters_spec (fs : List PartitionFilter) :
    (validatePartitionFilters fs = none ↔
      ((∀ f ∈ fs, 1 ≤ f.Count) ∧ (begins1 fs).Nodup ∧
       (intervalsOf fs).Pairwise ivDisjoint)) ∧
    (∀ fs', fs.Perm fs' →
      (validatePartitionFilters fs' = none ↔ validatePartitionFilters fs = none)) := by
  have main : ∀ gs : List PartitionFilter,
      validatePartitionFilters gs = none ↔
        ((∀ f ∈ gs, 1 ≤ f.Count) ∧ (begins1 gs).Nodup ∧
         (intervalsOf gs).Pairwise ivDisjoint) := by
    intro gs
    unfold validatePartitionFilters
    by_cases hlen : gs.length < 1
    · have hnil : gs = [] := by
        cases gs with
        | nil => rfl
        | cons g gs' => simp at hlen
      subst hnil
      simp [begins1, intervalsOf]
    · simp only [if_neg hlen]
      cases hc : collectFilters gs [] [] with
      | error e =>
        refine iff_of_false (by simp) ?_
        rintro ⟨hcnt, hnd, -⟩
        have hok := (collectFilters_ok_iff gs [] [] (intervalsOf gs)).mpr
          ⟨hcnt, hnd, by simp, by simp⟩
        rw [hc] at hok
        cases hok
      | ok ivs =>
        obtain ⟨hcnt, hnd, -, hout⟩ := (collectFilters_ok_iff gs [] [] ivs).mp hc
        simp only [List.nil_append] at hout
        subst hout
        rw [scanAdjacent_none_iff]
        have hsorted : (List.insertionSort ivLE (intervalsOf gs)).Sorted ivLE :=
          List.sorted_insertionSort _ _
        have hperm : (List.insertionSort ivLE (intervalsOf gs)).Perm (intervalsOf gs) :=
          List.perm_insertionSort _ _
        have hproper : ∀ p ∈ List.insertionSort ivLE (intervalsOf gs), p.1 ≤ p.2 := by
          intro p hpmem
          have hmem2 : p ∈ intervalsOf gs := hperm.subset hpmem
          simp only [intervalsOf, List.mem_map, List.mem_filter] at hmem2
          obtain ⟨f, ⟨-, hflt⟩, rfl⟩ := hmem2
          simp only [decide_eq_true_eq] at hflt
          simp only []
          omega
        rw [chain_lt_iff_pairwise_disjoint _ hsorted hproper]
        have hpw : (List.insertionSort ivLE (intervalsOf gs)).Pairwise ivDisjoint
            ↔ (intervalsOf gs).Pairwise ivDisjoint :=
          hperm.pairwise_iff (fun h => Or.symm h)
        rw [hpw]
        exact ⟨fun h => ⟨hcnt, hnd, h⟩, fun h => h.2.2⟩
  refine ⟨main fs, ?_⟩
  intro fs' hp
  rw [main fs, main fs']
  have h1 : (∀ f ∈ fs', 1 ≤ f.Count) ↔ (∀ f ∈ fs, 1 ≤ f.Count) := by
    constructor <;> intro h f hf
    · exact h f (hp.subset hf)
    · exact h f (hp.symm.subset hf)
  have hpb : (begins1 fs).Perm (begins1 fs') :=
    (hp.filter _).map _
  have hpi : (intervalsOf fs).Perm (intervalsOf fs') :=
    (hp.filter _).map _
  have hpw2 : (intervalsOf fs).Pairwise ivDisjoint
      ↔ (intervalsOf fs').Pairwise ivDisjoint :=
    hpi.pairwise_iff (fun h => Or.symm h)
  constructor
  · rintro ⟨a, b2, c⟩
    exact ⟨h1.mp a, hpb.nodup_iff.mpr b2, hpw2.mpr c⟩
  · rintro ⟨a, b2, c⟩
    exact ⟨h1.mpr a, hpb.nodup_iff.mp b2, hpw2.mp c⟩

/-- Witness for C3: a mixed list of point filters and disjoint ranges is
accepted. -/
theorem validatePartitionFilters_spec_witness :
    validatePartitionFilters
      [⟨0, 1⟩, ⟨5, 5⟩, ⟨20, 1⟩, ⟨30, 10⟩] = none :=
  ((validatePartitionFilters_spec _).1).mpr (by decide)

/-! ## Storage-provider exclusivity (`ValidateStorages`, internal/config/validation.go) -/

/-- `models.AwsS3` restricted to the identifying fields that
`ValidateStorages` tests (the full struct carries further tuning fields the
check never reads). -/
structure AwsS3 where
  BucketName : String := ""
  Region : String := ""
  Profile : String := ""
  Endpoint : String := ""
  deriving Repr, DecidableEq

/-- `models.GcpStorage` restricted to the identifying fields that
`ValidateStorages` tests. -/
structure GcpStorage where
  BucketName : String := ""
  KeyFile : String := ""
  Endpoint : String := ""
  deriving Repr, DecidableEq

/-- `models.AzureBlob` restricted to the identifying fields that
`ValidateStorages` tests (the same seven fields as its `IsConfigured`). -/
structure AzureBlob where
  AccountName : String := ""
  AccountKey : String := ""
  TenantID : String := ""
  ClientID : String := ""
  ClientSecret : String := ""
  Endpoint : String := ""
  ContainerName : String := ""
  deriving Repr, DecidableEq

/-- `models.Local`: only passed through to its own `Validate` by
`ValidateStorages`, so a placeholder field suffices. -/
structure LocalStorage where
  Directory : String := ""
  deriving Repr, DecidableEq

/-- Errors of `ValidateStorages`: a wrapped per-provider validation error,
or the exclusivity error. -/
inductive StorageErr where
  | localInvalid (e : String)
  | awsInvalid (e : String)
  | gcpInvalid (e : String)
  | azureInvalid (e : String)
  | tooManyProviders
  deriving Repr, DecidableEq

/-- The aws identifying-field test inlined in `ValidateStorages`. -/
def awsFieldsSet (a : AwsS3) : Prop :=
  a.BucketName ≠ "" ∨ a.Region ≠ "" ∨ a.Profile ≠ "" ∨ a.Endpoint ≠ ""

instance : DecidablePred awsFieldsSet :=
  fun a => inferInstanceAs (Decidable (_ ∨ _ ∨ _ ∨ _))

/-- The gcp identifying-field test inlined in `ValidateStorages`. -/
def gcpFieldsSet (g : GcpStorage) : Prop :=
  g.BucketName ≠ "" ∨ g.KeyFile ≠ "" ∨ g.Endpoint ≠ ""

instance : DecidablePred gcpFieldsSet :=
  fun g => inferInstanceAs (Decidable (_ ∨ _ ∨ _))

/-- The azure identifying-field test inlined in `ValidateStorages`. -/
def azureFieldsSet (z : AzureBlob) : Prop :=
  z.ContainerName ≠ "" ∨ z.AccountName ≠ "" ∨ z.AccountKey ≠ "" ∨
  z.Endpoint ≠ "" ∨ z.TenantID ≠ "" ∨ z.ClientID ≠ "" ∨ z.ClientSecret ≠ ""

instance : DecidablePred azureFieldsSet :=
  fun z => inferInstanceAs (Decidable (_ ∨ _ ∨ _ ∨ _ ∨ _ ∨ _ ∨ _))

/-- One provider block of `ValidateStorages`: skip a nil or unconfigured
provider, otherwise run its `Validate` (failing early, wrapped) and count
it. -/
def providerStep {α : Type} (cfg : Option α) (fieldsSet : α → Prop)
    [DecidablePred fieldsSet] (validate : α → Option String)
    (wrap : String → StorageErr) : Except StorageErr Nat :=
  match cfg with
  | none => .ok 0
  | some a =>
    if fieldsSet a then
      match validate a with
      | some e => .error (wrap e)
      | none => .ok 1
    else .ok 0

/-- The cloud-provider half of `ValidateStorages`: aws, then gcp, then
azure, then the exclusivity check on the count. -/
def validateCloud (awsV : AwsS3 → Option String) (gcpV : GcpStorage → Option String)
    (azureV : AzureBlob → Option String) (aws : Option AwsS3)
    (gcp : Option GcpStorage) (azure : Option AzureBlob) : Option StorageErr :=
  match providerStep aws awsFieldsSet awsV .awsInvalid with
  | .error e => some e
  | .ok ca =>
    match providerStep gcp gcpFieldsSet gcpV .gcpInvalid with
    | .error e => some e
    | .ok cg =>
      match providerStep azure azureFieldsSet azureV .azureInvalid with
      | .error e => some e
      | .ok cz => if 1 < ca + cg + cz then some .tooManyProviders else none

/-- `ValidateStorages` (internal/config/validation.go lines 24-71).  The
per-provider `Validate(isBackup)` methods live in their own files (mostly
outside src/), so they are passed in as parameters; the identifying-field
tests and the control flow are transcribed from the source. -/
def ValidateStorages
    (awsV : AwsS3 → Bool → Option String)
    (gcpV : GcpStorage → Bool → Option String)
    (azureV : AzureBlob → Bool → Option String)
    (localV : LocalStorage → Bool → Option String)
    (isBackup : Bool)
    (aws : Option AwsS3) (gcp : Option GcpStorage) (azure : Option AzureBlob)
    (localStorage : Option LocalStorage) : Option StorageErr :=
  match localStorage with
  | some l =>
    match localV l isBackup with
    | some e => some (.localInvalid e)
    | none =>
      validateCloud (fun a => awsV a isBackup) (fun g => gcpV g isBackup)
        (fun z => azureV z isBackup) aws gcp azure
  | none =>
    validateCloud (fun a => awsV a isBackup) (fun g => gcpV g isBackup)
      (fun z => azureV z isBackup) aws gcp azure

/-- 1 if an optional provider is present and configured, else 0. -/
def optCount {α : Type} (cfg : Option α) (fieldsSet : α → Prop)
    [DecidablePred fieldsSet] : Nat :=
  match cfg with
  | none => 0
  | some a => if fieldsSet a then 1 else 0

/-- How many cloud providers are present and configured. -/
def cloudCount (aws : Option AwsS3) (gcp : Option GcpStorage)
    (azure : Option AzureBlob) : Nat :=
  optCount aws awsFieldsSet + optCount gcp gcpFieldsSet +
    optCount azure azureFieldsSet

theorem providerStep_split {α : Type} (cfg : Option α) (fieldsSet : α → Prop)
    [DecidablePred fieldsSet] (validate : α → Option String)
    (wrap : String → StorageErr) :
    (∃ a e, cfg = some a ∧ fieldsSet a ∧ validate a = some e ∧
      providerStep cfg fieldsSet validate wrap = .error (wrap e)) ∨
    ((∀ a, cfg = some a → fieldsSet a → validate a = none) ∧
      providerStep cfg fieldsSet validate wrap = .ok (optCount cfg fieldsSet)) := by
  cases cfg with
  | none => right; exact ⟨by simp, rfl⟩
  | some a =>
    by_cases hP : fieldsSet a
    · cases hv : validate a with
      | some e =>
        left
        exact ⟨a, e, rfl, hP, hv, by simp [providerStep, hP, hv]⟩
      | none =>
        right
        refine ⟨?_, by simp [providerStep, optCount, hP, hv]⟩
        intro a' ha' _
        cases ha'
        exact hv
    · right
      refine ⟨?_, by simp [providerStep, optCount, hP]⟩
      intro a' ha' hP'
      cases ha'
      exact absurd hP' hP

/-- C5: in `ValidateStorages`, Local is validated whenever present; each
cloud provider is validated and counted only when one of its identifying
fields is non-empty; the result is the exclusivity error exactly when every
present/configured provider passes its own validation and at least two cloud
providers are configured; and when at most one is configured (all
validations passing), the check succeeds — in particular Local plus exactly
one configured cloud provider passes. -/
theorem validateStorages_spec
    (awsV : AwsS3 → Bool → Option String)
    (gcpV : GcpStorage → Bool → Option String)
    (azureV : AzureBlob → Bool → Option String)
    (localV : LocalStorage → Bool → Option String)
    (isBackup : Bool)
    (aws : Option AwsS3) (gcp : Option GcpStorage) (azure : Option AzureBlob)
    (localStorage : Option LocalStorage) :
    (ValidateStorages awsV gcpV azureV localV isBackup aws gcp azure localStorage
        = some .tooManyProviders ↔
      ((∀ l, localStorage = some l → localV l isBackup = none) ∧
       (∀ a, aws = some a → awsFieldsSet a → awsV a isBackup = none) ∧
       (∀ g, gcp = some g → gcpFieldsSet g → gcpV g isBackup = none) ∧
       (∀ z, azure = some z → azureFieldsSet z → azureV z isBackup = none) ∧
       2 ≤ cloudCount aws gcp azure)) ∧
    (((∀ l, localStorage = some l → localV l isBackup = none) ∧
      (∀ a, aws = some a → awsFieldsSet a → awsV a isBackup = none) ∧
      (∀ g, gcp = some g → gcpFieldsSet g → gcpV g isBackup = none) ∧
      (∀ z, azure = some z → azureFieldsSet z → azureV z isBackup = none) ∧
      cloudCount aws gcp azure ≤ 1) →
        ValidateStorages awsV gcpV azureV localV isBackup aws gcp azure
          localStorage = none) := by
  have cloud : ∀ (hA : ∀ a, aws = some a → awsFieldsSet a → awsV a isBackup = none)
      (hG : ∀ g, gcp = some g → gcpFieldsSet g → gcpV g isBackup = none)
      (hZ : ∀ z, azure = some z → azureFieldsSet z → azureV z isBackup = none),
      validateCloud (fun a => awsV a isBackup) (fun g => gcpV g isBackup)
          (fun z => azureV z isBackup) aws gcp azure
        = if 1 < cloudCount aws gcp azure then some .tooManyProviders else none := by
    intro hA hG hZ
    have sA : providerStep aws awsFieldsSet (fun a => awsV a isBackup) .awsInvalid
        = .ok (optCount aws awsFieldsSet) := by
      rcases providerStep_split aws awsFieldsSet (fun a => awsV a isBackup) .awsInvalid with
        ⟨a, e, ha, hset, hv, -⟩ | ⟨-, h⟩
      · rw [hA a ha hset] at hv; cases hv
      · exact h
    have sG : providerStep gcp gcpFieldsSet (fun g => gcpV g isBackup) .gcpInvalid
        = .ok (optCount gcp gcpFieldsSet) := by
      rcases providerStep_split gcp gcpFieldsSet (fun g => gcpV g isBackup) .gcpInvalid with
        ⟨g, e, hg, hset, hv, -⟩ | ⟨-, h⟩
      · rw [hG g hg hset] at hv; cases hv
      · exact h
    have sZ : providerStep azure azureFieldsSet (fun z => azureV z isBackup) .azureInvalid
        = .ok (optCount azure azureFieldsSet) := by
      rcases providerStep_split azure azureFieldsSet (fun z => azureV z isBackup) .azureInvalid with
        ⟨z, e, hz, hset, hv, -⟩ | ⟨-, h⟩
      · rw [hZ z hz hset] at hv; cases hv
      · exact h
    rw [validateCloud, sA, sG, sZ]
    rfl
  have cloudNotTooMany : ∀ (r : Option StorageErr),
      (∃ e, r = some (.awsInvalid e)) ∨ (∃ e, r = some (.gcpInvalid e)) ∨
        (∃ e, r = some (.azureInvalid e)) → r ≠ some .tooManyProviders := by
    rintro r (⟨e, rfl⟩ | ⟨e, rfl⟩ | ⟨e, rfl⟩) <;> simp
  constructor
  · -- the iff
    constructor
    · -- forward: result is the exclusivity error
      intro hres
      rcases localStorage with _ | l
      · -- localStorage = none
        simp only [ValidateStorages] at hres
        rcases providerStep_split aws awsFieldsSet (fun a => awsV a isBackup) .awsInvalid with
          ⟨a, e, ha, hset, hv, hstep⟩ | ⟨hA, hstepA⟩
        · simp only [validateCloud, hstep] at hres
          exact absurd hres (by simp)
        rcases providerStep_split gcp gcpFieldsSet (fun g => gcpV g isBackup) .gcpInvalid with
          ⟨g, e, hg, hset, hv, hstep⟩ | ⟨hG, hstepG⟩
        · simp only [validateCloud, hstepA, hstep] at hres
          exact absurd hres (by simp)
        rcases providerStep_split azure azureFieldsSet (fun z => azureV z isBackup) .azureInvalid with
          ⟨z, e, hz, hset, hv, hstep⟩ | ⟨hZ, hstepZ⟩
        · simp only [validateCloud, hstepA, hstepG, hstep] at hres
          exact absurd hres (by simp)
        rw [cloud hA hG hZ] at hres
        refine ⟨by simp, hA, hG, hZ, ?_⟩
        by_contra hcnt
        rw [if_neg (by omega)] at hres
        cases hres
      · -- localStorage = some l
        simp only [ValidateStorages] at hres
        cases hlv : localV l isBackup with
        | some e =>
          simp only [hlv] at hres
          exact absurd hres (by simp)
        | none =>
          simp only [hlv] at hres
          rcases providerStep_split aws awsFieldsSet (fun a => awsV a isBackup) .awsInvalid with
            ⟨a, e, ha, hset, hv, hstep⟩ | ⟨hA, hstepA⟩
          · simp only [validateCloud, hstep] at hres
            exact absurd hres (by simp)
          rcases providerStep_split gcp gcpFieldsSet (fun g => gcpV g isBackup) .gcpInvalid with
            ⟨g, e, hg, hset, hv, hstep⟩ | ⟨hG, hstepG⟩
          · simp only [validateCloud, hstepA, hstep] at hres
            exact absurd hres (by simp)
          rcases providerStep_split azure azureFieldsSet (fun z => azureV z isBackup) .azureInvalid with
            ⟨z, e, hz, hset, hv, hstep⟩ | ⟨hZ, hstepZ⟩
          · simp only [validateCloud, hstepA, hstepG, hstep] at hres
            exact absurd hres (by simp)
          rw [cloud hA hG hZ] at hres
          refine ⟨?_, hA, hG, hZ, ?_⟩
          · intro l' hl'
            cases hl'
            exact hlv
          · by_contra hcnt
            rw [if_neg (by omega)] at hres
            cases hres
    · -- backward: all pass and two configured force the exclusivity error
      rintro ⟨hL, hA, hG, hZ, hcnt⟩
      rcases localStorage with _ | l
      · simp only [ValidateStorages]
        rw [cloud hA hG hZ, if_pos (by omega)]
      · simp only [ValidateStorages, hL l rfl]
        rw [cloud hA hG hZ, if_pos (by omega)]
  · -- at most one configured, all passing: success
    rintro ⟨hL, hA, hG, hZ, hcnt⟩
    rcases localStorage with _ | l
    · simp only [ValidateStorages]
      rw [cloud hA hG hZ, if_neg (by omega)]
    · simp only [ValidateStorages, hL l rfl]
      rw [cloud hA hG hZ, if_neg (by omega)]

/-- Witness for C5: Local plus a configured AWS S3 (bucket set) passes when
each configured provider's own validation passes, with Azure and GCP
absent. -/
theorem validateStorages_spec_witness :
    ValidateStorages (fun _ _ => none) (fun _ _ => none) (fun _ _ => none)
      (fun _ _ => none) true (some { BucketName := "b" }) none none
      (some { Directory := "d" }) = none :=
  (validateStorages_spec _ _ _ _ _ _ _ _ _).2
    ⟨fun _ _ => rfl, fun _ _ _ => rfl, fun _ _ _ => rfl, fun _ _ _ => rfl,
     by decide⟩

/-! ## Local-time parsing (`parseLocalTimeToUTC`, internal/models/backup.go)

The function depends on two externals: the system clock (`time.Now`, used
only for its local calendar date) and the local timezone.  Both enter as a
`TimeEnv` parameter: today's date and the zone's offset east of UTC in
seconds.  Instants are represented as Unix-style second counts. -/

/-- The ambient time environment: today's local calendar date and the local
timezone's offset (seconds east of UTC). -/
structure TimeEnv where
  todayY : Nat
  todayM : Nat
  todayD : Nat
  offset : Int
  deriving Repr, DecidableEq

/-- Errors of `parseLocalTimeToUTC`. -/
inductive TimeErr where
  | unknownFormat
  | parseFailed
  deriving Repr, DecidableEq

/-- The regular expression `^\d{4}-\d{2}-\d{2}_\d{2}:\d{2}:\d{2}$`
(`expDateTime`). -/
def matchDateTime : List Char → Bool
  | [y1, y2, y3, y4, '-', m1, m2, '-', a1, a2, '_', h1, h2, ':', i1, i2, ':', s1, s2] =>
    y1.isDigit && y2.isDigit && y3.isDigit && y4.isDigit && m1.isDigit &&
    m2.isDigit && a1.isDigit && a2.isDigit && h1.isDigit && h2.isDigit &&
    i1.isDigit && i2.isDigit && s1.isDigit && s2.isDigit
  | _ => false

/-- The regular expression `^\d{2}:\d{2}:\d{2}$` (`expTimeOnly`). -/
def matchTimeOnly : List Char → Bool
  | [h1, h2, ':', i1, i2, ':', s1, s2] =>
    h1.isDigit && h2.isDigit && i1.isDigit && i2.isDigit && s1.isDigit &&
    s2.isDigit
  | _ => false

/-- The regular expression `^\d{4}-\d{2}-\d{2}$` (`expDateOnly`). -/
def matchDateOnly : List Char → Bool
  | [y1, y2, y3, y4, '-', m1, m2, '-', a1, a2] =>
    y1.isDigit && y2.isDigit && y3.isDigit && y4.isDigit && m1.isDigit &&
    m2.isDigit && a1.isDigit && a2.isDigit
  | _ => false

/-- Numeric value of a decimal digit character. -/
def digitVal (c : Char) : Nat := c.toNat - 48

/-- Two-digit decimal number. -/
def num2 (a b : Char) : Nat := 10 * digitVal a + digitVal b

/-- Four-digit decimal number. -/
def num4 (a b c d : Char) : Nat :=
  1000 * digitVal a + 100 * digitVal b + 10 * digitVal c + digitVal d

/-- The decimal digit character for `n % 10`. -/
def digitChar (n : Nat) : Char :=
  match n % 10 with
  | 0 => '0' | 1 => '1' | 2 => '2' | 3 => '3' | 4 => '4'
  | 5 => '5' | 6 => '6' | 7 => '7' | 8 => '8' | _ => '9'

/-- Two-decimal-digit rendering (zero padded), as in Go's `Format`. -/
def natDigits2 (n : Nat) : List Char := [digitChar (n / 10), digitChar n]

/-- Four-decimal-digit rendering (zero padded), as in Go's `Format`. -/
def natDigits4 (n : Nat) : List Char :=
  [digitChar (n / 1000), digitChar (n / 100), digitChar (n / 10), digitChar n]

/-- Go `currentTime.Format("2006-01-02")` for today's date. -/
def fmtDate (y m d : Nat) : List Char :=
  natDigits4 y ++ '-' :: natDigits2 m ++ '-' :: natDigits2 d

/-- Gregorian leap-year rule (Go `isLeap`). -/
def isLeapYear (y : Nat) : Bool :=
  y % 4 == 0 && (y % 100 != 0 || y % 400 == 0)

/-- Days in a month (Go `daysIn`). -/
def goDaysIn (y m : Nat) : Nat :=
  if m = 2 then (if isLeapYear y then 29 else 28)
  else if m = 4 ∨ m = 6 ∨ m = 9 ∨ m = 11 then 30
  else 31

/-- The field-range validation Go's `time.Parse` applies to a
`2006-01-02_15:04:05`-layout string. -/
def goTimeValid (y m d h mi s : Nat) : Prop :=
  1 ≤ m ∧ m ≤ 12 ∧ 1 ≤ d ∧ d ≤ goDaysIn y m ∧ h ≤ 23 ∧ mi ≤ 59 ∧ s ≤ 59

instance (y m d h mi s : Nat) : Decidable (goTimeValid y m d h mi s) := by
  unfold goTimeValid; infer_instance

/-- A calendar date Go's parser accepts (month and day in range). -/
def validDate (y m d : Nat) : Prop :=
  1 ≤ m ∧ m ≤ 12 ∧ 1 ≤ d ∧ d ≤ goDaysIn y m

instance (y m d : Nat) : Decidable (validDate y m d) := by
  unfold validDate; infer_instance

/-- A wall-clock time Go's parser accepts. -/
def validClock (h mi s : Nat) : Prop := h ≤ 23 ∧ mi ≤ 59 ∧ s ≤ 59

instance (h mi s : Nat) : Decidable (validClock h mi s) := by
  unfold validClock; infer_instance

/-- Days between a civil date and 1970-01-01 (the standard days-from-civil
algorithm the Go runtime's date arithmetic is equivalent to). -/
def daysFromCivil (y m d : Int) : Int :=
  let y' := if m ≤ 2 then y - 1 else y
  let era := (if 0 ≤ y' then y' else y' - 399) / 400
  let yoe := y' - era * 400
  let mp := (m + 9) % 12
  let doy := (153 * mp + 2) / 5 + (d - 1)
  let doe := yoe * 365 + yoe / 4 - yoe / 100 + doy
  era * 146097 + doe - 719468

/-- Unix seconds of a local civil date-time in a zone `offset` seconds east
of UTC — i.e. the Go value `ParseInLocation(...).UTC()`. -/
def civilToEpochUTC (y m d h mi s : Nat) (offset : Int) : Int :=
  daysFromCivil y m d * 86400 + ((h * 3600 + mi * 60 + s : Nat) : Int) - offset

/-- Go `time.ParseInLocation("2006-01-02_15:04:05", ·, loc)` followed by
`.UTC()`, on a character list: layout match, digit checks, field-range
checks, then the instant. -/
def parseNormalized (offset : Int) : List Char → Except TimeErr Int
  | [y1, y2, y3, y4, '-', m1, m2, '-', a1, a2, '_', h1, h2, ':', i1, i2, ':', s1, s2] =>
    if y1.isDigit && y2.isDigit && y3.isDigit && y4.isDigit && m1.isDigit &&
        m2.isDigit && a1.isDigit && a2.isDigit && h1.isDigit && h2.isDigit &&
        i1.isDigit && i2.isDigit && s1.isDigit && s2.isDigit then
      if goTimeValid (num4 y1 y2 y3 y4) (num2 m1 m2) (num2 a1 a2) (num2 h1 h2)
          (num2 i1 i2) (num2 s1 s2) then
        .ok (civilToEpochUTC (num4 y1 y2 y3 y4) (num2 m1 m2) (num2 a1 a2)
          (num2 h1 h2) (num2 i1 i2) (num2 s1 s2) offset)
      else .error .parseFailed
    else .error .parseFailed
  | _ => .error .parseFailed

/-- `parseLocalTimeToUTC` (internal/models/backup.go lines 417-445): match
the input against the three patterns in priority order, normalize to the
full `YYYY-MM-DD_HH:MM:SS` form (as-is / prepend today's local date /
append midnight), then parse in the local zone and convert to UTC.
`time.LoadLocation("Local")` is modelled as always succeeding (the `TimeEnv`
is the loaded zone). -/
def parseLocalTimeToUTC (env : TimeEnv) (timeString : String) :
    Except TimeErr Int :=
  if matchDateTime timeString.data then
    parseNormalized env.offset timeString.data
  else if matchTimeOnly timeString.data then
    parseNormalized env.offset
      (fmtDate env.todayY env.todayM env.todayD ++ '_' :: timeString.data)
  else if matchDateOnly timeString.data then
    parseNormalized env.offset
      (timeString.data ++ '_' :: ['0', '0', ':', '0', '0', ':', '0', '0'])
  else .error .unknownFormat

/-- Field extraction from a full-datetime character list. -/
def extractDT : List Char → Nat × Nat × Nat × Nat × Nat × Nat
  | [y1, y2, y3, y4, _, m1, m2, _, a1, a2, _, h1, h2, _, i1, i2, _, s1, s2] =>
    (num4 y1 y2 y3 y4, num2 m1 m2, num2 a1 a2, num2 h1 h2, num2 i1 i2,
      num2 s1 s2)
  | _ => (0, 0, 0, 0, 0, 0)

/-- Field extraction from a time-only character list. -/
def extractTO : List Char → Nat × Nat × Nat
  | [h1, h2, _, i1, i2, _, s1, s2] => (num2 h1 h2, num2 i1 i2, num2 s1 s2)
  | _ => (0, 0, 0)

/-- Field extraction from a date-only character list. -/
def extractDO : List Char → Nat × Nat × Nat
  | [y1, y2, y3, y4, _, m1, m2, _, a1, a2] =>
    (num4 y1 y2 y3 y4, num2 m1 m2, num2 a1 a2)
  | _ => (0, 0, 0)

/-- The normalized six fields (year, month, day, hour, minute, second) a
given input denotes, per the claim's reading of the three patterns, tried
in priority order: a full datetime is taken as is, a time-only input gets
today's local date, a date-only input gets midnight; `none` when no
pattern matches. -/
def timeFields (env : TimeEnv) (cs : List Char) :
    Option (Nat × Nat × Nat × Nat × Nat × Nat) :=
  if matchDateTime cs then some (extractDT cs)
  else if matchTimeOnly cs then
    some (env.todayY, env.todayM, env.todayD, (extractTO cs).1,
      (extractTO cs).2.1, (extractTO cs).2.2)
  else if matchDateOnly cs then
    some ((extractDO cs).1, (extractDO cs).2.1, (extractDO cs).2.2, 0, 0, 0)
  else none

theorem digitVal_digitChar (n : Nat) : digitVal (digitChar n) = n % 10 := by
  have h : n % 10 < 10 := Nat.mod_lt _ (by omega)
  unfold digitChar
  generalize hm : n % 10 = m
  rw [hm] at h
  interval_cases m <;> decide

theorem digitChar_isDigit (n : Nat) : (digitChar n).isDigit = true := by
  have h : n % 10 < 10 := Nat.mod_lt _ (by omega)
  unfold digitChar
  generalize hm : n % 10 = m
  rw [hm] at h
  interval_cases m <;> decide

theorem date_clock_iff_goTimeValid (y m d h mi s : Nat) :
    (validDate y m d ∧ validClock h mi s) ↔ goTimeValid y m d h mi s := by
  unfold goTimeValid validDate validClock
  tauto

theorem num4_digitChar (y : Nat) (hy : y ≤ 9999) :
    num4 (digitChar (y / 1000)) (digitChar (y / 100)) (digitChar (y / 10))
      (digitChar y) = y := by
  unfold num4
  rw [digitVal_digitChar, digitVal_digitChar, digitVal_digitChar,
    digitVal_digitChar]
  omega

theorem num2_digitChar (m : Nat) (hm : m ≤ 99) :
    num2 (digitChar (m / 10)) (digitChar m) = m := by
  unfold num2
  rw [digitVal_digitChar, digitVal_digitChar]
  omega

theorem matchDateTime_shape {cs : List Char} (h : matchDateTime cs = true) :
    ∃ y1 y2 y3 y4 m1 m2 a1 a2 h1 h2 i1 i2 s1 s2,
      cs = [y1, y2, y3, y4, '-', m1, m2, '-', a1, a2, '_', h1, h2, ':', i1,
        i2, ':', s1, s2] := by
  unfold matchDateTime at h
  split at h
  · rename_i y1 y2 y3 y4 m1 m2 a1 a2 h1 h2 i1 i2 s1 s2
    exact ⟨y1, y2, y3, y4, m1, m2, a1, a2, h1, h2, i1, i2, s1, s2, rfl⟩
  · exact Bool.noConfusion h

theorem matchTimeOnly_shape {cs : List Char} (h : matchTimeOnly cs = true) :
    ∃ h1 h2 i1 i2 s1 s2, cs = [h1, h2, ':', i1, i2, ':', s1, s2] := by
  unfold matchTimeOnly at h
  split at h
  · rename_i h1 h2 i1 i2 s1 s2
    exact ⟨h1, h2, i1, i2, s1, s2, rfl⟩
  · exact Bool.noConfusion h

theorem matchDateOnly_shape {cs : List Char} (h : matchDateOnly cs = true) :
    ∃ y1 y2 y3 y4 m1 m2 a1 a2,
      cs = [y1, y2, y3, y4, '-', m1, m2, '-', a1, a2] := by
  unfold matchDateOnly at h
  split at h
  · rename_i y1 y2 y3 y4 m1 m2 a1 a2
    exact ⟨y1, y2, y3, y4, m1, m2, a1, a2, rfl⟩
  · exact Bool.noConfusion h

/-- C7: `parseLocalTimeToUTC` matches its input against the three patterns
in priority order — full datetime taken as is, time-only with today's local
date prepended, date-only with midnight appended (`timeFields`) — and an
input matching none of the three fails with the unknown-format error; an
input matching a pattern whose normalized fields are out of range (bad
date or bad clock) fails with the parse error; otherwise the result is the
normalized local civil time converted to UTC.  Today's date is assumed to
be a real calendar date. -/
theorem parseLocalTimeToUTC_spec (env : TimeEnv) (s : String)
    (htoday : validDate env.todayY env.todayM env.todayD ∧ env.todayY ≤ 9999) :
    (timeFields env s.data = none →
      parseLocalTimeToUTC env s = .error .unknownFormat) ∧
    (∀ y m d h mi sec, timeFields env s.data = some (y, m, d, h, mi, sec) →
      ((validDate y m d ∧ validClock h mi sec) →
        parseLocalTimeToUTC env s = .ok (civilToEpochUTC y m d h mi sec env.offset)) ∧
      (¬(validDate y m d ∧ validClock h mi sec) →
        parseLocalTimeToUTC env s = .error .parseFailed)) := by
  obtain ⟨⟨hm1, hm2, hd1, hd2⟩, hy4⟩ := htoday
  have hrw : parseLocalTimeToUTC env s =
      (if matchDateTime s.data then parseNormalized env.offset s.data
       else if matchTimeOnly s.data then
         parseNormalized env.offset
           (fmtDate env.todayY env.todayM env.todayD ++ '_' :: s.data)
       else if matchDateOnly s.data then
         parseNormalized env.offset
           (s.data ++ '_' :: ['0', '0', ':', '0', '0', ':', '0', '0'])
       else .error .unknownFormat) := rfl
  rw [hrw]
  generalize s.data = cs
  by_cases hdt : matchDateTime cs = true
  · -- full datetime
    obtain ⟨y1, y2, y3, y4, m1, m2, a1, a2, hc1, hc2, i1, i2, s1, s2, rfl⟩ :=
      matchDateTime_shape hdt
    have hdig : (y1.isDigit && y2.isDigit && y3.isDigit && y4.isDigit &&
        m1.isDigit && m2.isDigit && a1.isDigit && a2.isDigit &&
        hc1.isDigit && hc2.isDigit && i1.isDigit && i2.isDigit &&
        s1.isDigit && s2.isDigit) = true := hdt
    simp only [hdt, if_true]
    constructor
    · intro hnone
      simp only [timeFields, hdt, if_true] at hnone
      cases hnone
    · intro y m d h mi sec hfields
      simp only [timeFields, hdt, if_true, Option.some.injEq] at hfields
      rw [show extractDT [y1, y2, y3, y4, '-', m1, m2, '-', a1, a2, '_', hc1,
          hc2, ':', i1, i2, ':', s1, s2] =
        (num4 y1 y2 y3 y4, num2 m1 m2, num2 a1 a2, num2 hc1 hc2, num2 i1 i2,
          num2 s1 s2) from rfl] at hfields
      simp only [Prod.mk.injEq] at hfields
      obtain ⟨rfl, rfl, rfl, rfl, rfl, rfl⟩ := hfields
      have hred0 : parseNormalized env.offset
          [y1, y2, y3, y4, '-', m1, m2, '-', a1, a2, '_', hc1, hc2, ':', i1,
            i2, ':', s1, s2] =
          (if y1.isDigit && y2.isDigit && y3.isDigit && y4.isDigit &&
              m1.isDigit && m2.isDigit && a1.isDigit && a2.isDigit &&
              hc1.isDigit && hc2.isDigit && i1.isDigit && i2.isDigit &&
              s1.isDigit && s2.isDigit then
            (if goTimeValid (num4 y1 y2 y3 y4) (num2 m1 m2) (num2 a1 a2)
                (num2 hc1 hc2) (num2 i1 i2) (num2 s1 s2) then
              Except.ok (civilToEpochUTC (num4 y1 y2 y3 y4) (num2 m1 m2)
                (num2 a1 a2) (num2 hc1 hc2) (num2 i1 i2) (num2 s1 s2)
                env.offset)
            else Except.error TimeErr.parseFailed)
          else Except.error TimeErr.parseFailed) := rfl
      rw [hred0, if_pos hdig]
      constructor
      · intro hvalid
        rw [if_pos ((date_clock_iff_goTimeValid _ _ _ _ _ _).mp hvalid)]
      · intro hnv
        rw [if_neg (fun hc => hnv ((date_clock_iff_goTimeValid _ _ _ _ _ _).mpr hc))]
  · by_cases hto : matchTimeOnly cs = true
    · -- time only: prepend today's date
      obtain ⟨hh1, hh2, i1, i2, s1, s2, rfl⟩ := matchTimeOnly_shape hto
      have hdig : (hh1.isDigit && hh2.isDigit && i1.isDigit && i2.isDigit &&
          s1.isDigit && s2.isDigit) = true := hto
      simp only [Bool.and_eq_true] at hdig
      obtain ⟨⟨⟨⟨⟨e1, e2⟩, e3⟩, e4⟩, e5⟩, e6⟩ := hdig
      have harg : fmtDate env.todayY env.todayM env.todayD ++ '_' ::
          [hh1, hh2, ':', i1, i2, ':', s1, s2] =
          [digitChar (env.todayY / 1000), digitChar (env.todayY / 100),
           digitChar (env.todayY / 10), digitChar env.todayY, '-',
           digitChar (env.todayM / 10), digitChar env.todayM, '-',
           digitChar (env.todayD / 10), digitChar env.todayD, '_',
           hh1, hh2, ':', i1, i2, ':', s1, s2] := rfl
      rw [if_neg hdt, if_pos hto, harg]
      have hdays : goDaysIn env.todayY env.todayM ≤ 31 := by
        unfold goDaysIn; split_ifs <;> omega
      have hnum4 := num4_digitChar env.todayY hy4
      have hnumM := num2_digitChar env.todayM (by omega)
      have hnumD := num2_digitChar env.todayD (by omega)
      have hred0 : parseNormalized env.offset
          [digitChar (env.todayY / 1000), digitChar (env.todayY / 100),
           digitChar (env.todayY / 10), digitChar env.todayY, '-',
           digitChar (env.todayM / 10), digitChar env.todayM, '-',
           digitChar (env.todayD / 10), digitChar env.todayD, '_',
           hh1, hh2, ':', i1, i2, ':', s1, s2] =
          (if (digitChar (env.todayY / 1000)).isDigit &&
              (digitChar (env.todayY / 100)).isDigit &&
              (digitChar (env.todayY / 10)).isDigit &&
              (digitChar env.todayY).isDigit &&
              (digitChar (env.todayM / 10)).isDigit &&
              (digitChar env.todayM).isDigit &&
              (digitChar (env.todayD / 10)).isDigit &&
              (digitChar env.todayD).isDigit &&
              hh1.isDigit && hh2.isDigit && i1.isDigit && i2.isDigit &&
              s1.isDigit && s2.isDigit then
            (if goTimeValid
                (num4 (digitChar (env.todayY / 1000)) (digitChar (env.todayY / 100))
                  (digitChar (env.todayY / 10)) (digitChar env.todayY))
                (num2 (digitChar (env.todayM / 10)) (digitChar env.todayM))
                (num2 (digitChar (env.todayD / 10)) (digitChar env.todayD))
                (num2 hh1 hh2) (num2 i1 i2) (num2 s1 s2) then
              Except.ok (civilToEpochUTC
                (num4 (digitChar (env.todayY / 1000)) (digitChar (env.todayY / 100))
                  (digitChar (env.todayY / 10)) (digitChar env.todayY))
                (num2 (digitChar (env.todayM / 10)) (digitChar env.todayM))
                (num2 (digitChar (env.todayD / 10)) (digitChar env.todayD))
                (num2 hh1 hh2) (num2 i1 i2) (num2 s1 s2) env.offset)
            else Except.error TimeErr.parseFailed)
          else Except.error TimeErr.parseFailed) := rfl
      have hchain : ((digitChar (env.todayY / 1000)).isDigit &&
          (digitChar (env.todayY / 100)).isDigit &&
          (digitChar (env.todayY / 10)).isDigit &&
          (digitChar env.todayY).isDigit &&
          (digitChar (env.todayM / 10)).isDigit &&
          (digitChar env.todayM).isDigit &&
          (digitChar (env.todayD / 10)).isDigit &&
          (digitChar env.todayD).isDigit &&
          hh1.isDigit && hh2.isDigit && i1.isDigit && i2.isDigit &&
          s1.isDigit && s2.isDigit) = true := by
        simp only [digitChar_isDigit, e1, e2, e3, e4, e5, e6, Bool.and_true,
          Bool.true_and]
      rw [hred0, if_pos hchain, hnum4, hnumM, hnumD]
      constructor
      · intro hnone
        unfold timeFields at hnone
        rw [if_neg hdt, if_pos hto] at hnone
        cases hnone
      · intro y m d h mi sec hfields
        unfold timeFields at hfields
        rw [if_neg hdt, if_pos hto] at hfields
        rw [show extractTO [hh1, hh2, ':', i1, i2, ':', s1, s2] =
          (num2 hh1 hh2, num2 i1 i2, num2 s1 s2) from rfl] at hfields
        simp only [Option.some.injEq, Prod.mk.injEq] at hfields
        obtain ⟨rfl, rfl, rfl, rfl, rfl, rfl⟩ := hfields
        constructor
        · intro hvalid
          rw [if_pos ((date_clock_iff_goTimeValid _ _ _ _ _ _).mp hvalid)]
        · intro hnv
          rw [if_neg (fun hc => hnv ((date_clock_iff_goTimeValid _ _ _ _ _ _).mpr hc))]
    · by_cases hdo : matchDateOnly cs = true
      · -- date only: append midnight
        obtain ⟨y1, y2, y3, y4, m1, m2, a1, a2, rfl⟩ := matchDateOnly_shape hdo
        have hdig : (y1.isDigit && y2.isDigit && y3.isDigit && y4.isDigit &&
            m1.isDigit && m2.isDigit && a1.isDigit && a2.isDigit) = true := hdo
        simp only [Bool.and_eq_true] at hdig
        obtain ⟨⟨⟨⟨⟨⟨⟨e1, e2⟩, e3⟩, e4⟩, e5⟩, e6⟩, e7⟩, e8⟩ := hdig
        have harg : ([y1, y2, y3, y4, '-', m1, m2, '-', a1, a2] : List Char) ++
            '_' :: ['0', '0', ':', '0', '0', ':', '0', '0'] =
            [y1, y2, y3, y4, '-', m1, m2, '-', a1, a2, '_',
             '0', '0', ':', '0', '0', ':', '0', '0'] := rfl
        rw [if_neg hdt, if_neg hto, if_pos hdo, harg]
        have hred0 : parseNormalized env.offset
            [y1, y2, y3, y4, '-', m1, m2, '-', a1, a2, '_',
             '0', '0', ':', '0', '0', ':', '0', '0'] =
            (if y1.isDigit && y2.isDigit && y3.isDigit && y4.isDigit &&
                m1.isDigit && m2.isDigit && a1.isDigit && a2.isDigit &&
                ('0' : Char).isDigit && ('0' : Char).isDigit &&
                ('0' : Char).isDigit && ('0' : Char).isDigit &&
                ('0' : Char).isDigit && ('0' : Char).isDigit then
              (if goTimeValid (num4 y1 y2 y3 y4) (num2 m1 m2) (num2 a1 a2)
                  (num2 '0' '0') (num2 '0' '0') (num2 '0' '0') then
                Except.ok (civilToEpochUTC (num4 y1 y2 y3 y4) (num2 m1 m2)
                  (num2 a1 a2) (num2 '0' '0') (num2 '0' '0') (num2 '0' '0')
                  env.offset)
              else Except.error TimeErr.parseFailed)
            else Except.error TimeErr.parseFailed) := rfl
        have hchain : (y1.isDigit && y2.isDigit && y3.isDigit && y4.isDigit &&
            m1.isDigit && m2.isDigit && a1.isDigit && a2.isDigit &&
            ('0' : Char).isDigit && ('0' : Char).isDigit &&
            ('0' : Char).isDigit && ('0' : Char).isDigit &&
            ('0' : Char).isDigit && ('0' : Char).isDigit) = true := by
          simp only [e1, e2, e3, e4, e5, e6, e7, e8,
            show ('0' : Char).isDigit = true from rfl, Bool.and_true,
            Bool.true_and]
        rw [hred0, if_pos hchain, show num2 '0' '0' = 0 from rfl]
        constructor
        · intro hnone
          unfold timeFields at hnone
          rw [if_neg hdt, if_neg hto, if_pos hdo] at hnone
          cases hnone
        · intro y m d h mi sec hfields
          unfold timeFields at hfields
          rw [if_neg hdt, if_neg hto, if_pos hdo] at hfields
          rw [show extractDO [y1, y2, y3, y4, '-', m1, m2, '-', a1, a2] =
            (num4 y1 y2 y3 y4, num2 m1 m2, num2 a1 a2) from rfl] at hfields
          simp only [Option.some.injEq, Prod.mk.injEq] at hfields
          obtain ⟨rfl, rfl, rfl, rfl, rfl, rfl⟩ := hfields
          constructor
          · intro hvalid
            rw [if_pos ((date_clock_iff_goTimeValid _ _ _ _ _ _).mp hvalid)]
          · intro hnv
            rw [if_neg (fun hc => hnv ((date_clock_iff_goTimeValid _ _ _ _ _ _).mpr hc))]
      · -- no pattern matches
        have hnone : timeFields env cs = none := by
          unfold timeFields
          rw [if_neg hdt, if_neg hto, if_neg hdo]
        rw [if_neg hdt, if_neg hto, if_neg hdo]
        constructor
        · intro _; rfl
        · intro y m d h mi sec hfields
          rw [hnone] at hfields
          cases hfields

/-- Witness for C7: `2024-01-02_03:04:05` in a zone one hour east of UTC
parses to the concrete UTC instant 2024-01-02T02:04:05Z (Unix 1704161045). -/
theorem parseLocalTimeToUTC_spec_witness :
    parseLocalTimeToUTC ⟨2024, 6, 15, 3600⟩ "2024-01-02_03:04:05"
      = .ok 1704161045 := by
  have h := (parseLocalTimeToUTC_spec ⟨2024, 6, 15, 3600⟩ "2024-01-02_03:04:05"
    (by decide)).2 2024 1 2 3 4 5 (by decide)
  rw [h.1 (by decide)]
  simp only [Except.ok.injEq]
  decide

/-! ## Backup config assembly (`newBackupConfig`, internal/config) -/

/-- An opaque parsed Aerospike filter expression (`aerospike.Expression`). -/
structure AerospikeExp where
  payload : String
  deriving Repr, DecidableEq

/-- `aerospike.ReplicaPolicy` values the assembler uses (`NewScanPolicy`
defaults to SEQUENCE). -/
inductive ReplicaPolicyT where
  | sequence
  | master
  | preferRack
  deriving Repr, DecidableEq

/-- `aerospike.ScanPolicy` restricted to the fields `Backup.ScanPolicy`
sets. -/
structure ScanPolicy where
  MaxRecords : Int := 0
  MaxRetries : Int := 0
  SleepBetweenRetries : Int := 0
  TotalTimeout : Int := 0
  SocketTimeout : Int := 0
  ReplicaPolicy : ReplicaPolicyT := .sequence
  IncludeBinData : Bool := true
  FilterExpression : Option AerospikeExp := none
  deriving Repr, DecidableEq

/-- `backup.ConfigBackup` restricted to the fields `newBackupConfig` sets.
The compression/encryption/secret-agent policies are opaque payloads. -/
structure ConfigBackup where
  Namespace : String := ""
  SetList : List String := []
  BinList : List String := []
  NoRecords : Bool := false
  NoIndexes : Bool := false
  NoUDFs : Bool := false
  RecordsPerSecond : Int := 0
  FileLimit : Nat := 0
  ParallelRead : Int := 0
  ParallelWrite : Int := 0
  Bandwidth : Int := 0
  Compact : Bool := false
  NoTTLOnly : Bool := false
  OutputFilePrefix : String := ""
  MetricsEnabled : Bool := false
  RackList : List Int := []
  StateFile : String := ""
  Continue : Bool := false
  PageSize : Int := 0
  NodeList : List String := []
  PartitionFilters : List PartitionFilter := []
  ScanPolicy : Option ScanPolicy := none
  CompressionPolicy : Option String := none
  EncryptionPolicy : Option String := none
  SecretAgentConfig : Option String := none
  ModBefore : Option Int := none
  ModAfter : Option Int := none
  deriving Repr, DecidableEq

/-- The external collaborators `newBackupConfig` calls into: the engine's
default-config constructors, its digest/partition-list parsers and
all-partitions filter, the client's expression parser, and the time
environment of §`parseLocalTimeToUTC`. -/
structure BackupExternals where
  defaultBackupConfig : ConfigBackup
  defaultScanPolicy : ScanPolicy
  parseAfterDigest : String → String → Option PartitionFilter
  parsePartitionList : String → String → Option (List PartitionFilter)
  filterAll : PartitionFilter
  expFromBase64 : String → Option AerospikeExp
  timeEnv : TimeEnv

/-- `MaxRack` (also mirrored in internal/config). -/
def MaxRack : Int := 1000000

/-- Decimal value of a digit list. -/
def digitsToNat (ds : List Char) : Nat :=
  ds.foldl (fun acc c => acc * 10 + (c.toNat - 48)) 0

/-- All-digit parse used by `goAtoi`. -/
def parseDigits (ds : List Char) : Option Int :=
  if ds ≠ [] ∧ ds.all Char.isDigit then some (digitsToNat ds) else none

/-- Go `strconv.Atoi`: optional sign, then decimal digits.  (The int64
overflow bound is not modelled; rack ids beyond it fail the MaxRack bound
anyway.) -/
def goAtoi (t : String) : Option Int :=
  match t.data with
  | '+' :: ds => parseDigits ds
  | '-' :: ds => (parseDigits ds).map (fun n => -n)
  | ds => parseDigits ds

/-- `Backup.Racks` (internal/models/backup.go): split the rack list on
commas and parse each token as an integer in `[0, MaxRack]`, failing on the
first bad token. -/
def Backup.racks (b : Backup) : Option (List Int) :=
  (splitByComma b.RackList).mapM fun t =>
    match goAtoi t with
    | none => none
    | some r =>
      if r < 0 then none
      else if r > MaxRack then none
      else some r

/-- `Backup.ScanPolicy` (internal/models/backup.go): populate the scan
policy from the backup options; prefer-racks selects PREFER_RACK, then a
rack list or node list overrides to MASTER; a filter expression is parsed
from base64 and may fail. -/
def Backup.scanPolicy (ext : BackupExternals) (b : Backup) : Option ScanPolicy :=
  let p := { ext.defaultScanPolicy with
    MaxRecords := b.MaxRecords, MaxRetries := b.MaxRetries,
    SleepBetweenRetries := b.SleepBetweenRetries,
    TotalTimeout := b.common.TotalTimeout,
    SocketTimeout := b.common.SocketTimeout }
  let p := if b.PreferRacks ≠ "" then { p with ReplicaPolicy := .preferRack } else p
  let p := if b.RackList ≠ "" ∨ b.NodeList ≠ "" then { p with ReplicaPolicy := .master } else p
  let p := if b.NoBins then { p with IncludeBinData := false } else p
  if b.FilterExpression ≠ "" then
    match ext.expFromBase64 b.FilterExpression with
    | none => none
    | some e => some { p with FilterExpression := some e }
  else some p

/-- `Backup.resolveFilters` (internal/models/backup.go): after-digest wins,
then the partition list, else the all-partitions filter. -/
def Backup.resolveFilters (ext : BackupExternals) (b : Backup) :
    Option (List PartitionFilter) :=
  if b.AfterDigest ≠ "" then
    match ext.parseAfterDigest b.common.Namespace b.AfterDigest with
    | none => none
    | some f => some [f]
  else if b.PartitionList ≠ "" then
    ext.parsePartitionList b.common.Namespace b.PartitionList
  else some [ext.filterAll]

/-- `Backup.PartitionFilters` (internal/models/backup.go): resolve, then
validate with `validatePartitionFilters`. -/
def Backup.partitionFilters (ext : BackupExternals) (b : Backup) :
    Option (List PartitionFilter) :=
  match Backup.resolveFilters ext b with
  | none => none
  | some pf =>
    match validatePartitionFilters pf with
    | some _ => none
    | none => some pf

/-- Go `path.Join(dir, f)` as used for the state-file path (modelled up to
`path.Clean`, which no claim examines). -/
def pathJoin (dir f : String) : String :=
  if dir = "" then f else dir ++ "/" ++ f

/-- The continue/state-file-destination and node-list blocks of
`newBackupConfig` (all infallible). -/
def nbcStateNode (b : Backup) (c : ConfigBackup) : ConfigBackup :=
  let c1 := if b.Continue ≠ "" then
      { c with StateFile := pathJoin b.common.Directory b.Continue,
               Continue := true, PageSize := b.ScanPageSize }
    else c
  let c2 := if b.StateFileDst ≠ "" then
      { c1 with StateFile := pathJoin b.common.Directory b.StateFileDst,
                PageSize := b.ScanPageSize }
    else c1
  if b.NodeList ≠ "" then { c2 with NodeList := splitByComma b.NodeList } else c2

/-- The modified-after block of `newBackupConfig`. -/
def nbcModAfter (ext : BackupExternals) (b : Backup) (c : ConfigBackup) :
    Option ConfigBackup :=
  if b.ModifiedAfter ≠ "" then
    match parseLocalTimeToUTC ext.timeEnv b.ModifiedAfter with
    | .error _ => none
    | .ok t => some { c with ModAfter := some t }
  else some c

/-- The modified-before block of `newBackupConfig`, followed by the
modified-after block. -/
def nbcModTimes (ext : BackupExternals) (b : Backup) (c : ConfigBackup) :
    Option ConfigBackup :=
  if b.ModifiedBefore ≠ "" then
    match parseLocalTimeToUTC ext.timeEnv b.ModifiedBefore with
    | .error _ => none
    | .ok t => nbcModAfter ext b { c with ModBefore := some t }
  else nbcModAfter ext b c

/-- The tail of `newBackupConfig` after the rack-list block: partition
filters, scan policy, the policy attachments, then the modified-time
window. -/
def nbcFinish (ext : BackupExternals) (b : Backup)
    (compressionPolicy encryptionPolicy secretAgentConfig : Option String)
    (c : ConfigBackup) : Option ConfigBackup :=
  match Backup.partitionFilters ext b with
  | none => none
  | some pf =>
    match Backup.scanPolicy ext b with
    | none => none
    | some sp =>
      nbcModTimes ext b
        { c with PartitionFilters := pf, ScanPolicy := some sp,
                 CompressionPolicy := compressionPolicy,
                 EncryptionPolicy := encryptionPolicy,
                 SecretAgentConfig := secretAgentConfig }

/-- `newBackupConfig` (internal/config): start from the engine's default
config, copy the option fields with the MiB→byte conversions, feed the one
parallel knob into both read and write parallelism, apply the
stdout/single-file override (`config.IsStdout() || OutputFile != ""`), then
rack list, state handling, node list, filters, scan policy, policies and
the modified-time window.  Fails (`none`) exactly where the Go function
returns a non-nil error. -/
def newBackupConfig (ext : BackupExternals) (b : Backup)
    (compressionPolicy encryptionPolicy secretAgentConfig : Option String) :
    Option ConfigBackup :=
  let c0 := { ext.defaultBackupConfig with
    Namespace := b.common.Namespace,
    SetList := splitByComma b.common.SetList,
    BinList := splitByComma b.common.BinList,
    NoRecords := b.common.NoRecords,
    NoIndexes := b.common.NoIndexes,
    RecordsPerSecond := b.common.RecordsPerSecond,
    FileLimit := b.FileLimit * 1024 * 1024,
    NoUDFs := b.common.NoUDFs,
    ParallelWrite := b.common.Parallel,
    ParallelRead := b.common.Parallel,
    Bandwidth := b.common.Bandwidth * 1024 * 1024,
    Compact := b.Compact,
    NoTTLOnly := b.NoTTLOnly,
    OutputFilePrefix := b.OutputFilePrefix,
    MetricsEnabled := true }
  let c1 := if b.OutputFile = "-" ∨ b.OutputFile ≠ "" then
      { c0 with FileLimit := 0, ParallelWrite := 1 }
    else c0
  if b.RackList ≠ "" then
    match b.racks with
    | none => none
    | some list =>
      nbcFinish ext b compressionPolicy encryptionPolicy secretAgentConfig
        (nbcStateNode b { c1 with RackList := list })
  else
    nbcFinish ext b compressionPolicy encryptionPolicy secretAgentConfig
      (nbcStateNode b c1)

theorem nbcStateNode_preserves (b : Backup) (c : ConfigBackup) :
    (nbcStateNode b c).FileLimit = c.FileLimit ∧
    (nbcStateNode b c).ParallelWrite = c.ParallelWrite ∧
    (nbcStateNode b c).ParallelRead = c.ParallelRead := by
  unfold nbcStateNode
  split_ifs <;> exact ⟨rfl, rfl, rfl⟩

theorem nbcModAfter_preserves (ext : BackupExternals) (b : Backup)
    (c c' : ConfigBackup) (h : nbcModAfter ext b c = some c') :
    c'.FileLimit = c.FileLimit ∧ c'.ParallelWrite = c.ParallelWrite ∧
    c'.ParallelRead = c.ParallelRead := by
  unfold nbcModAfter at h
  by_cases hm : b.ModifiedAfter ≠ ""
  · rw [if_pos hm] at h
    cases hp : parseLocalTimeToUTC ext.timeEnv b.ModifiedAfter with
    | error e => rw [hp] at h; cases h
    | ok t => rw [hp] at h; cases h; exact ⟨rfl, rfl, rfl⟩
  · rw [if_neg hm] at h
    cases h
    exact ⟨rfl, rfl, rfl⟩

theorem nbcModTimes_preserves (ext : BackupExternals) (b : Backup)
    (c c' : ConfigBackup) (h : nbcModTimes ext b c = some c') :
    c'.FileLimit = c.FileLimit ∧ c'.ParallelWrite = c.ParallelWrite ∧
    c'.ParallelRead = c.ParallelRead := by
  unfold nbcModTimes at h
  by_cases hm : b.ModifiedBefore ≠ ""
  · rw [if_pos hm] at h
    cases hp : parseLocalTimeToUTC ext.timeEnv b.ModifiedBefore with
    | error e => rw [hp] at h; cases h
    | ok t =>
      simp only [hp] at h
      obtain ⟨k1, k2, k3⟩ := nbcModAfter_preserves ext b _ c' h
      exact ⟨k1, k2, k3⟩
  · rw [if_neg hm] at h
    exact nbcModAfter_preserves ext b _ c' h

theorem nbcFinish_preserves (ext : BackupExternals) (b : Backup)
    (comp enc sa : Option String) (c c' : ConfigBackup)
    (h : nbcFinish ext b comp enc sa c = some c') :
    c'.FileLimit = c.FileLimit ∧ c'.ParallelWrite = c.ParallelWrite ∧
    c'.ParallelRead = c.ParallelRead := by
  unfold nbcFinish at h
  cases hpf : Backup.partitionFilters ext b with
  | none => rw [hpf] at h; cases h
  | some pf =>
    simp only [hpf] at h
    cases hsp : Backup.scanPolicy ext b with
    | none => rw [hsp] at h; cases h
    | some sp =>
      simp only [hsp] at h
      obtain ⟨k1, k2, k3⟩ := nbcModTimes_preserves ext b _ c' h
      exact ⟨k1, k2, k3⟩

/-- C6: for a validated backup configuration writing to stdout
(output-file `-`) or to a single output file, the assembled regular backup
config has file-limit forced to 0 and write-parallelism forced to 1,
while read-parallelism keeps the configured parallel value. -/
theorem newBackupConfig_stdout_override (ext : BackupExternals) (b : Backup)
    (comp enc sa : Option String) (c : ConfigBackup)
    (hvalid : b.validate = none)
    (hout : b.OutputFile = "-" ∨ b.OutputFile ≠ "")
    (hres : newBackupConfig ext b comp enc sa = some c) :
    c.FileLimit = 0 ∧ c.ParallelWrite = 1 ∧ c.ParallelRead = b.common.Parallel := by
  simp only [newBackupConfig] at hres
  rw [if_pos hout] at hres
  by_cases hrack : b.RackList ≠ ""
  · rw [if_pos hrack] at hres
    cases hr : b.racks with
    | none => rw [hr] at hres; cases hres
    | some list =>
      simp only [hr] at hres
      obtain ⟨h1, h2, h3⟩ := nbcFinish_preserves ext b comp enc sa _ c hres
      refine ⟨?_, ?_, ?_⟩
      · rw [h1, (nbcStateNode_preserves b _).1]
      · rw [h2, (nbcStateNode_preserves b _).2.1]
      · rw [h3, (nbcStateNode_preserves b _).2.2]
  · rw [if_neg hrack] at hres
    obtain ⟨h1, h2, h3⟩ := nbcFinish_preserves ext b comp enc sa _ c hres
    refine ⟨?_, ?_, ?_⟩
    · rw [h1, (nbcStateNode_preserves b _).1]
    · rw [h2, (nbcStateNode_preserves b _).2.1]
    · rw [h3, (nbcStateNode_preserves b _).2.2]

/-- Concrete externals for the C6 witness: trivial engine defaults, an
all-partitions filter covering 4096 partitions, UTC today 2024-06-15. -/
def extW : BackupExternals :=
  { defaultBackupConfig := {}, defaultScanPolicy := {},
    parseAfterDigest := fun _ _ => none,
    parsePartitionList := fun _ _ => none,
    filterAll := ⟨0, 4096⟩,
    expFromBase64 := fun _ => none,
    timeEnv := ⟨2024, 6, 15, 0⟩ }

/-- Concrete backup options for the C6 witness: stdout output, a nonzero
file limit and parallel 8. -/
def bW : Backup :=
  { OutputFile := "-", FileLimit := 1000,
    common := { Namespace := "test", Parallel := 8 } }

/-- The assembled config for the C6 witness inputs. -/
def cW : ConfigBackup :=
  { Namespace := "test", FileLimit := 0, ParallelRead := 8,
    ParallelWrite := 1, MetricsEnabled := true,
    PartitionFilters := [⟨0, 4096⟩], ScanPolicy := some {} }

/-- Witness for C6: a validated stdout backup with parallel 8 and
file-limit 1000 MiB assembles with file-limit 0, write-parallelism 1 and
read-parallelism 8. -/
theorem newBackupConfig_stdout_override_witness :
    bW.validate = none ∧
    newBackupConfig extW bW none none none = some cW ∧
    (cW.FileLimit = 0 ∧ cW.ParallelWrite = 1 ∧
      cW.ParallelRead = bW.common.Parallel) :=
  ⟨by decide, by decide,
   newBackupConfig_stdout_override extW bW none none none cW (by decide)
     (Or.inl rfl) (by decide)⟩

end Absctl
